import Mathlib

/-!
Verification of the honey-ts SQL formatter and parser against its
specification.

The development shallowly embeds the TypeScript sources:
  * `sql.ts` (the clause/expression formatter, `format`),
  * `types.ts` (the value classification guards `isIdent`, `isTypedValue`,
    `isClause`, ...),
  * `helpers.ts` (the clause tree walker `walkClauses` and `injectWhere`),
  * `parser.ts` (the AST-to-clause transformer behind `fromSql`).

JavaScript values manipulated by the library are modelled by the inductive
type `JVal` (null, undefined, booleans, numbers, strings, arrays and
insertion-ordered string-keyed objects).  Symbols and Date values are not
modelled: every clause map exercised here uses plain strings, which is the
convention of the current code base.  Numbers are modelled as integers;
no claim involves fractional numbers.

The formatter mutates a per-call array of numbered parameters; this is
modelled by the state monad `FmtM` over `Except String` (all failures in
the source are synchronous `throw`s carrying a message).  Recursive
formatting functions take an explicit fuel argument; the public entry
point `format` supplies a fuel that is ample for every statement whose
nesting depth is below 1000, and all concrete evaluations below use it.
-/

set_option maxRecDepth 20000

namespace HoneyTs

/-- The universe of JavaScript values handled by the library: `null`,
`undefined`, booleans, (integer) numbers, strings, arrays, and plain
objects as insertion-ordered association lists. -/
inductive JVal where
  | vnull : JVal
  | vundef : JVal
  | vbool : Bool → JVal
  | vnum : Int → JVal
  | vstr : String → JVal
  | varr : List JVal → JVal
  | vobj : List (String × JVal) → JVal

open JVal

/-- JavaScript truthiness: `null`, `undefined`, `false`, `0` and the empty
string are falsy; arrays and objects are always truthy. -/
def truthy : JVal → Bool
  | vnull => false
  | vundef => false
  | vbool b => b
  | vnum n => n != 0
  | vstr s => s ≠ ""
  | varr _ => true
  | vobj _ => true

/-- Property access `o[k]`: the value stored under `k`, or `undefined` when
the key is absent or the receiver is not an object. -/
def getField : JVal → String → JVal
  | vobj fs, k => ((fs.find? (fun kv => kv.1 = k)).map (fun kv => kv.2)).getD vundef
  | _, _ => vundef

/-- Association list update mirroring `{...o, k: v}`: an existing key keeps
its position, a new key is appended. -/
def setFields : List (String × JVal) → String → JVal → List (String × JVal)
  | [], k, v => [(k, v)]
  | (k', v') :: rest, k, v =>
      if k' = k then (k, v) :: rest else (k', v') :: setFields rest k v

/-- Object update `{...o, k: v}`; non-objects are returned unchanged. -/
def setField : JVal → String → JVal → JVal
  | vobj fs, k, v => vobj (setFields fs k v)
  | o, _, _ => o

/-- Test for the `undefined` value. -/
def isUndef : JVal → Bool
  | vundef => true
  | _ => false

/-! ### String utilities (ported from the string helpers in sql.ts)

All string manipulation is done on `List Char` so that every definition
reduces by kernel evaluation. -/

/-- Character class `\w` of the JavaScript regexes: ASCII letters, digits
and underscore. -/
def isWordChar (c : Char) : Bool :=
  (c ≥ 'a' && c ≤ 'z') || (c ≥ 'A' && c ≤ 'Z') || (c ≥ '0' && c ≤ '9') || c = '_'

/-- First character of an identifier segment: ASCII letter or underscore. -/
def isWordStart (c : Char) : Bool :=
  (c ≥ 'a' && c ≤ 'z') || (c ≥ 'A' && c ≤ 'Z') || c = '_'

/-- ASCII upper-casing of one character, as `String.prototype.toUpperCase`
acts on the identifiers used here. -/
def upChar (c : Char) : Char :=
  if c ≥ 'a' && c ≤ 'z' then Char.ofNat (c.toNat - 32) else c

/-- ASCII lower-casing of one character. -/
def lowChar (c : Char) : Char :=
  if c ≥ 'A' && c ≤ 'Z' then Char.ofNat (c.toNat + 32) else c

/-- `toUpperCase` on a string. -/
def upStr (s : String) : String := ⟨s.data.map upChar⟩

/-- `toLowerCase` on a string. -/
def lowStr (s : String) : String := ⟨s.data.map lowChar⟩

/-- Membership of a character in a string. -/
def strContains (s : String) (c : Char) : Bool := s.data.any (fun d => d = c)

/-- `String.prototype.startsWith` for a single-character prefix. -/
def startsWithChar (s : String) (c : Char) : Bool :=
  match s.data with
  | [] => false
  | d :: _ => d = c

/-- Drop the first character of a string (`substring(1)`). -/
def dropOne (s : String) : String :=
  match s.data with
  | [] => ""
  | _ :: rest => ⟨rest⟩

/-- Split a character list at every occurrence of the separator character;
like the `splitBySeparator` helper of sql.ts (and `indexOf` based JS
splitting) it yields empty segments for leading, trailing or doubled
separators. -/
def splitCharsOn (sep : Char) : List Char → List (List Char)
  | [] => [[]]
  | c :: rest =>
      let r := splitCharsOn sep rest
      if c = sep then [] :: r
      else
        match r with
        | seg :: segs => (c :: seg) :: segs
        | [] => [[c]]

/-- `splitBySeparator` of sql.ts, for a single-character separator. -/
def splitOnChar (s : String) (sep : Char) : List String :=
  (splitCharsOn sep s.data).map (fun l => ⟨l⟩)

/-- Join a list of strings with a separator (`Array.prototype.join`). -/
def joinSep (sep : String) : List String → String
  | [] => ""
  | x :: rest => rest.foldl (fun acc y => acc ++ sep ++ y) x

/-- Replace every hyphen by an underscore: the `nameUnderscore` helper of
sql.ts. -/
def nameUnderscore (s : String) : String :=
  ⟨s.data.map (fun c => if c = '-' then '_' else c)⟩

/-- Replace every character `c` by two copies of it; this is `strop`'s
`x.replace(new RegExp(end, "g"), end + end)` specialised to the
single-character postgres quote. -/
def doubleChar (c : Char) (s : String) : String :=
  ⟨s.data.flatMap (fun d => if d = c then [d, d] else [d])⟩

/-- `strop('"', x, '"')`: the postgres identifier quoting function from the
dialect table of sql.ts. -/
def pgQuote (s : String) : String := "\"" ++ doubleChar '"' s ++ "\""

/-- One step of `dehyphen`: a hyphen standing between two word characters
becomes a space, exactly as `s.replace(/(\w)-(?=\w)/g, "$1 ")`. -/
def dehyphenChars : List Char → List Char
  | a :: b :: c :: rest =>
      if isWordChar a && b = '-' && isWordChar c then
        a :: ' ' :: dehyphenChars (c :: rest)
      else
        a :: dehyphenChars (b :: c :: rest)
  | l => l
termination_by l => l.length

/-- `dehyphen` of sql.ts. -/
def dehyphen (s : String) : String :=
  if strContains s '-' then ⟨dehyphenChars s.data⟩ else s

/-- `sqlKw`: SQL keyword rendering of an identifier (quoted names pass
through, a `%` function marker is stripped, hyphens become spaces, the
rest is upper-cased).  The symbol branch of the source is not modelled. -/
def sqlKw (s : String) : String :=
  if startsWithChar s '\'' then dropOne s
  else
    let n := if startsWithChar s '%' then dropOne s else s
    upStr (dehyphen n)

/-- `sqlKw` applied to a `JVal` at the call sites that coerce clause values
with `as string`; non-strings are not modelled (they would be a JS type
error or produce garbage) and render as the empty keyword. -/
def sqlKwJ : JVal → String
  | vstr s => sqlKw s
  | _ => ""

/-- Prefix test on character lists. -/
def isPrefixList : List Char → List Char → Bool
  | [], _ => true
  | _ :: _, [] => false
  | a :: as, b :: bs => a = b && isPrefixList as bs

/-- Replace the first occurrence of `needle` (non-empty) in `hay` by
`repl`, as `String.prototype.replace` with a string pattern. -/
def replaceFirstChars (needle repl : List Char) : List Char → List Char
  | [] => []
  | c :: rest =>
      if isPrefixList needle (c :: rest) then
        repl ++ (c :: rest).drop needle.length
      else
        c :: replaceFirstChars needle repl rest

/-- `String.prototype.replace` with a plain (single occurrence) pattern. -/
def replaceFirst (s needle repl : String) : String :=
  if needle.data.isEmpty then s else ⟨replaceFirstChars needle.data repl.data s.data⟩

/-- Number of positions at which `needle` occurs in `hay` (used only to
state the tenant-injection claims; `needle` is always non-empty there). -/
def countOccsChars (needle : List Char) : List Char → Nat
  | [] => 0
  | c :: rest =>
      (if isPrefixList needle (c :: rest) then 1 else 0) + countOccsChars needle rest

/-- Occurrence count of a substring. -/
def countOccs (hay needle : String) : Nat := countOccsChars needle.data hay.data

/-- `s.replace(/ /g, "_")` used on function names. -/
def spacesToUnderscore (s : String) : String :=
  ⟨s.data.map (fun c => if c = ' ' then '_' else c)⟩

/-- Suffix test on strings (`String.prototype.endsWith`). -/
def strEndsWith (s suffix : String) : Bool :=
  isPrefixList suffix.data.reverse s.data.reverse

/-- Drop the last `n` characters (`s.slice(0, -n)`). -/
def dropLast (s : String) (n : Nat) : String :=
  ⟨s.data.take (s.data.length - n)⟩

/-! ### Value classification (ported from types.ts) -/

/-- Consume one identifier segment `[a-zA-Z_][a-zA-Z0-9_]*` and return the
remaining characters, or `none` when no segment starts here. -/
def identSegRest : List Char → Option (List Char)
  | [] => none
  | c :: rest => if isWordStart c then some (rest.dropWhile isWordChar) else none

/-- Match the tail of the identifier regex: after a segment, either the end
of the string or a `.`/`/` qualifier followed by another segment. -/
def identChars : Nat → List Char → Bool
  | 0, _ => false
  | fuel + 1, l =>
      match identSegRest l with
      | none => false
      | some [] => true
      | some (c :: r) => (c = '.' || c = '/') && identChars fuel r

/-- `isIdent` of types.ts restricted to strings (symbols are not modelled):
the empty string is not an identifier, `*` and `%`-prefixed strings are,
and otherwise the string must match
`[a-zA-Z_][a-zA-Z0-9_]*([./][a-zA-Z_][a-zA-Z0-9_]*)*`. -/
def isIdentStr (s : String) : Bool :=
  if s = "" then false
  else if s = "*" then true
  else if startsWithChar s '%' then true
  else identChars (s.data.length + 1) s.data

/-- `isIdent` on a `JVal`; only strings qualify here. -/
def isIdentJ : JVal → Bool
  | vstr s => isIdentStr s
  | _ => false

/-- `isParam`: an object carrying a `__param` key. -/
def isParamObj : JVal → Bool
  | vobj fs => fs.any (fun kv => kv.1 = "__param")
  | _ => false

/-- `isRaw`: an object carrying a `__raw` key. -/
def isRawObj : JVal → Bool
  | vobj fs => fs.any (fun kv => kv.1 = "__raw")
  | _ => false

/-- `isLift`: an object carrying a `__lift` key. -/
def isLiftObj : JVal → Bool
  | vobj fs => fs.any (fun kv => kv.1 = "__lift")
  | _ => false

/-- The `clauseKeys` set of types.ts: single-key objects whose key is one
of these are clause maps, not typed values. -/
def clauseKeys : List String :=
  ["select", "select-distinct", "select-distinct-on",
   "from", "join", "left-join", "right-join", "inner-join", "outer-join",
   "full-join", "cross-join",
   "where", "group-by", "having", "order-by", "limit", "offset",
   "insert-into", "replace-into", "values", "columns", "set", "update",
   "delete", "delete-from",
   "on-conflict", "on-constraint", "do-nothing", "do-update-set",
   "returning", "with", "with-recursive",
   "union", "union-all", "intersect", "except", "except-all",
   "create-table", "drop-table", "alter-table", "truncate",
   "raw", "nest", "for", "lock", "window", "partition-by"]

/-- `k.startsWith("__")` spelled out. -/
def startsWithUnderscores (k : String) : Bool :=
  match k.data with
  | '_' :: '_' :: _ => true
  | _ => false

/-- `isTypedValue`: an object with exactly one key that neither starts with
`__` nor is a registered clause key. -/
def isTypedValue : JVal → Bool
  | vobj [(k, _)] => !startsWithUnderscores k && !clauseKeys.contains k
  | _ => false

/-- `isClause`: a non-array object that is not a param/raw/lift wrapper and
not a typed value. -/
def isClause (x : JVal) : Bool :=
  match x with
  | vobj _ => !isParamObj x && !isRawObj x && !isLiftObj x && !isTypedValue x
  | _ => false

/-- `isExprArray` (`Array.isArray`). -/
def isExprArray : JVal → Bool
  | varr _ => true
  | _ => false

/-! ### Operator registries (module-level state of sql.ts, as populated at
load time; no claim exercises the runtime registration functions) -/

/-- The built-in `infixOps` set of sql.ts. -/
def binOps : List String :=
  ["and", "or", "xor", "<>", "<=", ">=", "||", "<->",
   "like", "not-like", "regexp", "~", "&&",
   "ilike", "not-ilike", "similar-to", "not-similar-to",
   "is", "is-not", "not=", "!=", "regex",
   "is-distinct-from", "is-not-distinct-from",
   "with-ordinality",
   "+", "-", "*", "%", "|", "&", "^", "=", "<", ">", "/"]

/-- The `infixAliases` map of sql.ts. -/
def binOpAlias (op : String) : String :=
  if op = "not=" then "<>"
  else if op = "!=" then "<>"
  else if op = "regex" then "regexp"
  else op

/-- `opIgnoreNil`: AND/OR drop null-ish operands. -/
def opIgnoreNil : List String := ["and", "or"]

/-- `opCanBeUnary`: operators rendered prefix when given one operand. -/
def opCanBeUnary : List String := ["+", "-", "~"]

/-- `normalizeOp`: lower-case a string head and resolve aliases; a
non-string head yields `none` (the expression array is then a tuple). -/
def normalizeOp : JVal → Option String
  | vstr s => some (binOpAlias (lowStr s))
  | _ => none

/-! ### Formatting context (createContext of sql.ts)

Every claim formats with the default postgres dialect (no `dialect` option
is ever passed), so the dialect is fixed: identifier quoting is `pgQuote`,
the clause order is the default order, and `numbered` defaults to true. -/

/-- The options bag accepted by `format` (the fields exercised by the
claims; `dialect`, `quotedAlways` and `pretty` are never passed and keep
their default behaviour, which is baked into `Ctx`). -/
structure FmtOpts where
  quoted : Option Bool := none
  quotedSnake : Option Bool := none
  inline : Option Bool := none
  numbered : Option Bool := none
  params : Option (List (String × JVal)) := none
  checking : Option String := none
  transformNullEquals : Option Bool := none

/-- The per-call formatting context produced by `createContext`. -/
structure Ctx where
  quoted : Bool
  quotedSnake : Bool
  inline : Bool
  checking : String
  transformNullEquals : Bool
  numberedMode : Bool
  params : List (String × JVal)
  dsl : Option JVal

/-- `createContext` with the default (postgres) dialect: `quoted` defaults
to false because no `dialect` option is passed, `numbered` defaults to
true because the dialect is postgres. -/
def createContext (o : FmtOpts) : Ctx :=
  { quoted := o.quoted.getD false
    quotedSnake := o.quotedSnake.getD false
    inline := o.inline.getD false
    checking := o.checking.getD "none"
    transformNullEquals := o.transformNullEquals.getD true
    numberedMode := o.numbered.getD true
    params := o.params.getD []
    dsl := none }

/-! ### The formatting monad

`format` keeps one mutable array of numbered parameters per call
(`ctx.options.numbered`, either an array or `null`); all error paths are
synchronous throws.  `FmtM` threads that array through `Except String`. -/

/-- State of a `format` call: the numbered parameter array, or `none` in
positional / `?` mode. -/
def NumSt : Type := Option (List JVal)

/-- The formatting monad: state over synchronous errors. -/
def FmtM (α : Type) : Type := NumSt → Except String (α × NumSt)

instance : Monad FmtM where
  pure a := fun s => .ok (a, s)
  bind x f := fun s =>
    match x s with
    | .error e => .error e
    | .ok (a, s') => f a s'

/-- Throw a synchronous error. -/
def throwF {α : Type} (msg : String) : FmtM α := fun _ => .error msg

/-- Read the numbered-parameter state. -/
def getNum : FmtM NumSt := fun s => .ok (s, s)

/-- Replace the numbered-parameter state. -/
def setNum (s' : NumSt) : FmtM Unit := fun _ => .ok ((), s')

/-- Lift a stateless `Except` computation (simple entity rendering). -/
def liftE {α : Type} (x : Except String α) : FmtM α := fun s =>
  match x with
  | .error e => .error e
  | .ok a => .ok (a, s)

/-- A formatting result: the SQL fragment and the parameters it consumed
(the `[sql, ...params]` tuples of the source). -/
def FRes : Type := String × List JVal

/-- `addNumberedParam`: push onto the numbered array and render `$n`. -/
def addNumberedParam (v : JVal) : FmtM FRes := fun st =>
  match st with
  | some arr => .ok (("$" ++ toString (arr.length + 1), [v]), some (arr ++ [v]))
  | none => .error "numbered parameter array is null"

/-! ### Inline value rendering (sqlizeValue of sql.ts) -/

/-- `JSON.stringify` restricted to the values appearing here (strings with
quote/backslash escaping, numbers, booleans, null, arrays, objects);
used by the jsonb auto-stringify branch of the typed-value formatter. -/
def jsonStringify (fuel : Nat) (v : JVal) : String :=
  match fuel with
  | 0 => ""
  | fuel + 1 =>
      match v with
      | vnull => "null"
      | vundef => "null"
      | vbool b => if b then "true" else "false"
      | vnum n => toString n
      | vstr s =>
          "\"" ++ ⟨s.data.flatMap (fun c =>
            if c = '"' then ['\\', '"']
            else if c = '\\' then ['\\', '\\'] else [c])⟩ ++ "\""
      | varr xs => "[" ++ joinSep "," (xs.map (jsonStringify fuel)) ++ "]"
      | vobj fs =>
          "\x7b" ++
            joinSep "," (fs.map (fun kv =>
              jsonStringify fuel (vstr kv.1) ++ ":" ++ jsonStringify fuel kv.2)) ++
          "\x7d"

/-- `sqlizeValue`: render a value as inline SQL literal text (strings
single-quoted with embedded quotes doubled, booleans as keywords, null-ish
values as `NULL`; the `Date` branch of the source is not modelled). -/
def sqlizeValue (fuel : Nat) (v : JVal) : String :=
  match fuel with
  | 0 => ""
  | fuel + 1 =>
      match v with
      | vnull => "NULL"
      | vundef => "NULL"
      | vstr s => "'" ++ doubleChar '\'' s ++ "'"
      | vbool b => if b then "TRUE" else "FALSE"
      | vnum n => toString n
      | varr xs => "[" ++ joinSep ", " (xs.map (sqlizeValue fuel)) ++ "]"
      | vobj fs =>
          "\x7b" ++
            joinSep ", " (fs.map (fun kv => kv.1 ++ ": " ++ sqlizeValue fuel kv.2)) ++
          "\x7d"

/-! ### Entity rendering (formatEntity / formatVar of sql.ts) -/

/-- `formatEntity` for string entities with the postgres dialect.  Because
the entity is a plain string, the source's `quoted || typeof e === "string"`
tests are true, so every part other than `*` is quoted.  A `/` namespace
is split off first (`split("/", 2)` keeps the first two segments), an
aliased entity is not dot-split, and a `;` anywhere in the result raises. -/
def formatEntity (e : String) (ctx : Ctx) (aliased : Bool := false)
    (dropNs : Bool := false) : Except String String :=
  if aliased && startsWithChar e '\'' then .ok (dropOne e)
  else
    let colName := if ctx.quotedSnake then nameUnderscore e else e
    let parts : List String :=
      if !dropNs && strContains e '/' then
        match splitOnChar e '/' with
        | ns :: n :: _ => [nameUnderscore ns, n]
        | l => l
      else if !aliased then splitOnChar colName '.'
      else [colName]
    let entity := joinSep "." (parts.map (fun p => if p = "*" then p else pgQuote p))
    if strContains entity ';' then
      .error ("Suspicious character found in entity: " ++ entity)
    else .ok entity

/-- `formatVar`: a `%fn.arg.arg` shorthand renders as a function call on
quoted entities, every other identifier goes through `formatEntity`. -/
def formatVar (x : String) (ctx : Ctx) (aliased : Bool := false)
    (dropNs : Bool := false) : Except String String :=
  if startsWithChar x '%' then do
    let parts := splitOnChar (dropOne x) '.'
    let fn := nameUnderscore (upStr (parts.headD ""))
    let args ← (parts.drop 1).mapM (fun p => formatEntity p ctx)
    .ok (fn ++ "(" ++ joinSep ", " args ++ ")")
  else formatEntity x ctx aliased dropNs

/-- JavaScript `String(x)` coercion for the values that reach it here
(named-parameter names and `at-time-zone` zones are strings). -/
def jsString : JVal → String
  | vstr s => s
  | vnum n => toString n
  | vbool b => if b then "true" else "false"
  | vnull => "null"
  | vundef => "undefined"
  | varr _ => ""
  | vobj _ => "[object Object]"

/-- `formatParamRef`: look a named parameter up in the options and render
it as an inline literal or as a placeholder. -/
def formatParamRef (name : String) (ctx : Ctx) : FmtM FRes := do
  match ctx.params.find? (fun kv => kv.1 = name) with
  | none => throwF ("Missing parameter value for " ++ name)
  | some (_, value) =>
      if ctx.inline then pure (sqlizeValue 1000 value, [])
      else if ctx.numberedMode then addNumberedParam value
      else pure ("?", [value])

/-! ### Clause registry (defaultClauseOrder and clauseFormatters) -/

/-- `defaultClauseOrder` of sql.ts, copied verbatim; this is also the
order used by `createContext` since no dialect override is in play. -/
def clauseOrder : List String :=
  ["alter-table", "add-column", "drop-column",
   "alter-column", "modify-column", "rename-column",
   "add-index", "drop-index", "rename-table",
   "create-table", "create-table-as", "with-columns",
   "create-view", "create-or-replace-view", "create-materialized-view",
   "create-extension",
   "drop-table", "drop-view", "drop-materialized-view", "drop-extension",
   "refresh-materialized-view",
   "create-index",
   "raw", "nest", "with", "with-recursive", "intersect", "union",
   "union-all", "except", "except-all",
   "insert-into", "replace-into", "update", "delete", "delete-from",
   "truncate",
   "select", "select-distinct", "select-distinct-on", "select-top",
   "select-distinct-top",
   "distinct", "expr", "exclude", "rename",
   "into", "bulk-collect-into",
   "columns", "set", "from", "using",
   "join-by",
   "join", "left-join", "right-join", "inner-join", "outer-join",
   "full-join",
   "cross-join",
   "where", "group-by", "having",
   "window", "partition-by",
   "order-by", "limit", "offset", "fetch", "for", "lock", "values",
   "on-conflict", "on-constraint", "do-nothing", "do-update-set",
   "on-duplicate-key-update",
   "returning",
   "with-data"]

/-- The domain of the `clauseFormatters` map of sql.ts: exactly the keys
for which `clauseFormatters.set` is called at module load. -/
def registeredClauses : List String :=
  ["select", "select-distinct", "select-distinct-on", "from", "returning",
   "insert-into", "replace-into", "update", "delete-from", "delete",
   "truncate", "columns", "set",
   "join", "left-join", "right-join", "inner-join", "outer-join",
   "full-join", "cross-join",
   "where", "having", "group-by", "order-by", "limit", "offset",
   "values", "on-conflict", "on-constraint", "do-nothing",
   "do-update-set", "with", "with-recursive",
   "union", "union-all", "intersect", "except", "except-all",
   "raw", "nest", "for", "lock",
   "create-table", "with-columns", "drop-table", "alter-table",
   "add-column", "drop-column"]

/-- The domain of the `specialSyntax` map of sql.ts. -/
def specialNames : List String :=
  ["case", "case-expr", "cast", "between", "not-between", "not",
   "distinct", "filter", "composite", "array", "nest", "raw", "inline",
   "param", "lift", "lateral", "over", "interval", "entity", "alias",
   ".", "at-time-zone"]

/-- The keys of a statement map that `formatDsl` reports as unknown: keys
with a defined value that do not occur in the clause order.  (During the
clause loop `seen` collects exactly the order keys with defined values, so
the final `!seen.has(k)` filter reduces to this.) -/
def unknownClauses (stmt : JVal) : List String :=
  match stmt with
  | vobj fs =>
      (fs.filter (fun kv => !clauseOrder.contains kv.1 && !isUndef kv.2)).map
        (fun kv => kv.1)
  | _ => []

/-- Strict-equality test against the JS `null` literal (`x === null`). -/
def isNullJ : JVal → Bool
  | vnull => true
  | _ => false

/-- `x != null` (loose): false exactly for `null` and `undefined`. -/
def notNullish (v : JVal) : Bool := !(isNullJ v || isUndef v)

/-- Objects in the `typeof value === "object" && value !== null` sense:
arrays and plain objects (wrappers included). -/
def isObjLike : JVal → Bool
  | vobj _ => true
  | varr _ => true
  | _ => false

/-- Group the argument list of a CASE form into (condition, value) pairs;
a trailing odd argument is paired with `undefined` as in the source's
non-null-asserted indexing. -/
def casePairs : List JVal → List (JVal × JVal)
  | [] => []
  | [a] => [(a, vundef)]
  | a :: b :: rest => (a, b) :: casePairs rest

/-- Inline literal / placeholder rendering for an unclassified literal
value (the final fallthrough of `formatExpr`). -/
def formatLiteral (fuel : Nat) (ctx : Ctx) (e : JVal) : FmtM FRes :=
  if ctx.inline then fun st => .ok ((sqlizeValue fuel e, []), st)
  else if ctx.numberedMode then addNumberedParam e
  else fun st => .ok (("?", [e]), st)

/-- Rendering of a typed value `{type: value}`: a `$`-typed boolean is the
inline keyword, a `jsonb` object/array is JSON-stringified, and otherwise
the value is inlined or parameterized with a `::type` cast suffix for
non-`$` keys. -/
def typedValueRender (fuel : Nat) (ctx : Ctx) (e : JVal) : FmtM FRes :=
  match e with
  | vobj ((ty, value0) :: _) =>
      match ty, value0 with
      | "$", vbool b => pure (if b then "TRUE" else "FALSE", [])
      | _, _ =>
          let value :=
            if ty = "jsonb" && isObjLike value0 then vstr (jsonStringify fuel value0)
            else value0
          if ctx.inline then
            let sqlVal := sqlizeValue fuel value
            pure (if ty = "$" then sqlVal else sqlVal ++ "::" ++ ty, [])
          else if ctx.numberedMode then do
            let (s, p) ← addNumberedParam value
            pure (if ty = "$" then s else s ++ "::" ++ ty, p)
          else pure (if ty = "$" then "?" else "?::" ++ ty, [value])
  | _ => throwF "typed value must be a single-key object"

/-- Entities taken from positions typed `SqlIdent` in the source must be
strings here (symbols are not modelled). -/
def entityOf (v : JVal) (ctx : Ctx) (aliased : Bool := false)
    (dropNs : Bool := false) : FmtM String :=
  match v with
  | vstr s => liftE (formatEntity s ctx aliased dropNs)
  | _ => throwF "entity must be a string"

mutual

/-- `formatExpr` of sql.ts.  The source's sequential `is…` guards are
collapsed per constructor of `JVal`: for a string the only live test is
`isIdent`, for an object the source order clause → raw → param → lift →
typed value is kept, arrays dispatch on their normalized head, booleans
and null render as keywords, and everything else is a literal value. -/
def formatExpr (fuel : Nat) (ctx : Ctx) (nested : Bool) (e : JVal) :
    FmtM FRes :=
  match fuel with
  | 0 => throwF "out of fuel"
  | fuel + 1 =>
      match e with
      | vstr s =>
          if isIdentStr s then do
            let sql ← liftE (formatVar s ctx)
            pure (sql, [])
          else formatLiteral fuel ctx (vstr s)
      | vobj _ =>
          if isClause e then formatDsl fuel ctx true false e
          else if isRawObj e then rawRender fuel ctx (getField e "__raw")
          else if isParamObj e then
            match getField e "__param" with
            | vstr n => formatParamRef n ctx
            | _ => throwF "named parameter key must be a string"
          else if isLiftObj e then
            let x := getField e "__lift"
            if ctx.inline then pure (sqlizeValue fuel x, [])
            else if ctx.numberedMode then addNumberedParam x
            else pure ("?", [x])
          else typedValueRender fuel ctx e
      | varr [] => pure ("", [])
      | varr (e0 :: rest) =>
          match normalizeOp e0 with
          | some op =>
              if binOps.contains op then
                if op = "=" || op = "<>" then
                  formatEqualityExpr fuel ctx nested op (e0 :: rest)
                else formatInfixExpr fuel ctx nested op (e0 :: rest)
              else if op = "in" || op = "not-in" then
                formatIn fuel ctx nested op (rest.getD 0 vundef) (rest.getD 1 vundef)
              else if specialNames.contains op then
                specialApply fuel ctx op rest
              else formatFnCall fuel ctx op (e0 :: rest)
          | none => do
              let (sqls, ps) ← formatExprList fuel ctx (e0 :: rest)
              pure ("(" ++ joinSep ", " sqls ++ ")", ps)
      | vbool b => pure (if b then "TRUE" else "FALSE", [])
      | vnull => pure ("NULL", [])
      | vundef => pure ("NULL", [])
      | vnum n => formatLiteral fuel ctx (vnum n)

/-- `formatExprList`: format each expression (un-nested) and collect the
fragments and the concatenated parameters. -/
def formatExprList (fuel : Nat) (ctx : Ctx) (es : List JVal) :
    FmtM (List String × List JVal) :=
  match fuel with
  | 0 => throwF "out of fuel"
  | fuel + 1 =>
      match es with
      | [] => pure ([], [])
      | e :: rest => do
          let (s, p) ← formatExpr fuel ctx false e
          let (ss, ps) ← formatExprList fuel ctx rest
          pure (s :: ss, p ++ ps)

/-- Like `formatExprList` but with `nested: true`, as in the argument
loops of the infix formatter. -/
def formatArgsNested (fuel : Nat) (ctx : Ctx) (es : List JVal) :
    FmtM (List String × List JVal) :=
  match fuel with
  | 0 => throwF "out of fuel"
  | fuel + 1 =>
      match es with
      | [] => pure ([], [])
      | e :: rest => do
          let (s, p) ← formatExpr fuel ctx true e
          let (ss, ps) ← formatArgsNested fuel ctx rest
          pure (s :: ss, p ++ ps)

/-- `formatEqualityExpr`: binary `=` / `<>`, with the `IS [NOT] NULL`
rewrite when `transformNullEquals` is on and one operand is the `null`
literal. -/
def formatEqualityExpr (fuel : Nat) (ctx : Ctx) (nested : Bool) (op : String)
    (es : List JVal) : FmtM FRes :=
  match fuel with
  | 0 => throwF "out of fuel"
  | fuel + 1 =>
      let a := es.getD 1 vundef
      let b := es.getD 2 vundef
      if es.length > 3 then throwF ("Only binary " ++ op ++ " is supported")
      else do
        let (s1, p1) ← formatExpr fuel ctx true a
        let (s2, p2) ← formatExpr fuel ctx true b
        let sql :=
          if ctx.transformNullEquals && (isNullJ a || isNullJ b) then
            let nonNull := if isNullJ a then s2 else s1
            if op = "=" then nonNull ++ " IS NULL" else nonNull ++ " IS NOT NULL"
          else s1 ++ " " ++ sqlKw op ++ " " ++ s2
        pure (if nested then "(" ++ sql ++ ")" else sql, p1 ++ p2)

/-- `formatInfixExpr`: n-ary infix rendering; AND/OR drop null-ish
operands (empty AND is `TRUE`, empty OR is `FALSE`), `+`/`-`/`~` with one
operand render prefix. -/
def formatInfixExpr (fuel : Nat) (ctx : Ctx) (nested : Bool) (op : String)
    (es : List JVal) : FmtM FRes :=
  match fuel with
  | 0 => throwF "out of fuel"
  | fuel + 1 =>
      let args := es.drop 1
      let args := if opIgnoreNil.contains op then args.filter notNullish else args
      if args.isEmpty then
        if op = "and" then pure ("TRUE", [])
        else if op = "or" then pure ("FALSE", [])
        else throwF ("No operands found for " ++ op)
      else do
        let (parts, ps) ← formatArgsNested fuel ctx args
        let sql :=
          if opCanBeUnary.contains op && parts.length = 1 then
            sqlKw op ++ " " ++ parts.headD ""
          else joinSep (" " ++ sqlKw op ++ " ") parts
        pure (if nested then "(" ++ sql ++ ")" else sql, ps)

/-- `formatIn`: `IN`/`NOT IN` with value-list expansion; an empty literal
list is illegal under basic/strict checking; any other right-hand side is
formatted as a nested expression (subquery, parameter, ...). -/
def formatIn (fuel : Nat) (ctx : Ctx) (nested : Bool) (op : String)
    (x y : JVal) : FmtM FRes :=
  match fuel with
  | 0 => throwF "out of fuel"
  | fuel + 1 => do
      let (sqlX, pX) ← formatExpr fuel ctx true x
      if ctx.checking ≠ "none" &&
          (match y with | varr [] => true | _ => false) then
        throwF "IN () empty collection is illegal"
      else
        let expand :=
          match y with
          | varr (y0 :: _) => !isIdentJ y0 && !isExprArray y0
          | _ => false
        if expand then do
          let ys := match y with | varr l => l | _ => []
          let (sqls, ps) ← formatExprList fuel ctx ys
          let sql := sqlX ++ " " ++ sqlKw op ++ " (" ++ joinSep ", " sqls ++ ")"
          pure (if nested then "(" ++ sql ++ ")" else sql, pX ++ ps)
        else do
          let (sqlY, pY) ← formatExpr fuel ctx true y
          let sql := sqlX ++ " " ++ sqlKw op ++ " " ++ sqlY
          pure (if nested then "(" ++ sql ++ ")" else sql, pX ++ pY)

/-- `formatFnCall`: generic function-call fallback, upper-casing the name,
with the `-distinct` suffix turned into a `DISTINCT` argument prefix. -/
def formatFnCall (fuel : Nat) (ctx : Ctx) (op : String) (es : List JVal) :
    FmtM FRes :=
  match fuel with
  | 0 => throwF "out of fuel"
  | fuel + 1 =>
      let args := es.drop 1
      let fnSql := spacesToUnderscore (sqlKw op)
      let pr :=
        if strEndsWith fnSql "_DISTINCT" then (dropLast fnSql 9, "DISTINCT ")
        else (fnSql, "")
      if args.isEmpty then pure (pr.1 ++ "()", [])
      else do
        let (sqls, ps) ← formatExprList fuel ctx args
        pure (pr.1 ++ "(" ++ pr.2 ++ joinSep ", " sqls ++ ")", ps)

/-- `rawRender`: a raw string passes through; a raw array interleaves
verbatim strings with formatted expressions. -/
def rawRender (fuel : Nat) (ctx : Ctx) (v : JVal) : FmtM FRes :=
  match fuel with
  | 0 => throwF "out of fuel"
  | fuel + 1 =>
      match v with
      | vstr s => pure (s, [])
      | varr parts => do
          let (sqls, ps) ← rawParts fuel ctx parts
          pure (joinSep "" sqls, ps)
      | _ => throwF "raw fragment must be a string or an array"

/-- The part loop of `rawRender`. -/
def rawParts (fuel : Nat) (ctx : Ctx) (parts : List JVal) :
    FmtM (List String × List JVal) :=
  match fuel with
  | 0 => throwF "out of fuel"
  | fuel + 1 =>
      match parts with
      | [] => pure ([], [])
      | vstr s :: rest => do
          let (ss, ps) ← rawParts fuel ctx rest
          pure (s :: ss, ps)
      | part :: rest => do
          let (s, p) ← formatExpr fuel ctx false part
          let (ss, ps) ← rawParts fuel ctx rest
          pure (s :: ss, p ++ ps)

/-- The WHEN/THEN/ELSE loop shared by the CASE handlers. -/
def caseWhens (fuel : Nat) (ctx : Ctx) (pairs : List (JVal × JVal)) :
    FmtM (List String × List JVal) :=
  match fuel with
  | 0 => throwF "out of fuel"
  | fuel + 1 =>
      match pairs with
      | [] => pure ([], [])
      | (cond, val) :: rest =>
          let isElse := match cond with | vstr s => lowStr s == "else" | _ => false
          if isElse then do
            let (sV, pV) ← formatExpr fuel ctx false val
            let (ss, ps) ← caseWhens fuel ctx rest
            pure ("ELSE" :: sV :: ss, pV ++ ps)
          else do
            let (sC, pC) ← formatExpr fuel ctx false cond
            let (sV, pV) ← formatExpr fuel ctx false val
            let (ss, ps) ← caseWhens fuel ctx rest
            pure ("WHEN" :: sC :: "THEN" :: sV :: ss, pC ++ pV ++ ps)

/-- The `inline` special syntax: format each argument in inline mode and
keep only the fragments. -/
def inlineList (fuel : Nat) (ctx : Ctx) (es : List JVal) :
    FmtM (List String) :=
  match fuel with
  | 0 => throwF "out of fuel"
  | fuel + 1 =>
      match es with
      | [] => pure []
      | e :: rest => do
          let (s, _) ← formatExpr fuel { ctx with inline := true } false e
          let ss ← inlineList fuel ctx rest
          pure (s :: ss)

/-- The ORDER BY loop of the `over` window handler: ascending is the SQL
default and is never emitted, only `DESC` is rendered. -/
def overOrderBy (fuel : Nat) (ctx : Ctx) (items : List JVal) :
    FmtM (List String × List JVal) :=
  match fuel with
  | 0 => throwF "out of fuel"
  | fuel + 1 =>
      match items with
      | [] => pure ([], [])
      | item :: rest =>
          let col := match item with | varr l => l.getD 0 vundef | _ => vundef
          let dir := match item with | varr l => l.getD 1 vundef | _ => vundef
          do
            let (colSql, colP) ← formatExpr fuel ctx false col
            let dirStr :=
              match dir with
              | vstr d => if lowStr d = "desc" then " DESC" else ""
              | _ => ""
            let (ss, ps) ← overOrderBy fuel ctx rest
            pure ((colSql ++ dirStr) :: ss, colP ++ ps)

/-- The `specialSyntax` registry of sql.ts: one handler per registered
special-syntax name, applied to the argument slice of the expression. -/
def specialApply (fuel : Nat) (ctx : Ctx) (op : String) (args : List JVal) :
    FmtM FRes :=
  match fuel with
  | 0 => throwF "out of fuel"
  | fuel + 1 =>
      if op = "case" then do
        let (parts, ps) ← caseWhens fuel ctx (casePairs args)
        pure (joinSep " " ("CASE" :: parts ++ ["END"]), ps)
      else if op = "case-expr" then do
        let (sE, pE) ← formatExpr fuel ctx false (args.headD vundef)
        let (parts, ps) ← caseWhens fuel ctx (casePairs (args.drop 1))
        pure (joinSep " " ("CASE" :: sE :: parts ++ ["END"]), pE ++ ps)
      else if op = "cast" then do
        let x := args.getD 0 vundef
        let ty := args.getD 1 vundef
        let (sX, pX) ← formatExpr fuel ctx false x
        let tySql ←
          if isIdentJ ty then pure (sqlKwJ ty)
          else do
            let (t, _) ← formatExpr fuel ctx false ty
            pure t
        pure ("CAST(" ++ sX ++ " AS " ++ tySql ++ ")", pX)
      else if op = "between" || op = "not-between" then do
        let (sX, pX) ← formatExpr fuel ctx true (args.getD 0 vundef)
        let (sA, pA) ← formatExpr fuel ctx true (args.getD 1 vundef)
        let (sB, pB) ← formatExpr fuel ctx true (args.getD 2 vundef)
        let kw := if op = "between" then " BETWEEN " else " NOT BETWEEN "
        pure (sX ++ kw ++ sA ++ " AND " ++ sB, pX ++ pA ++ pB)
      else if op = "not" then do
        let (s, p) ← formatExpr fuel ctx true (args.headD vundef)
        pure ("NOT " ++ s, p)
      else if op = "distinct" then do
        let (s, p) ← formatExpr fuel ctx true (args.headD vundef)
        pure ("DISTINCT " ++ s, p)
      else if op = "filter" then do
        let (fnSql, fnP) ← formatExpr fuel ctx false (args.getD 0 vundef)
        let (condSql, condP) ← formatExpr fuel ctx false (args.getD 1 vundef)
        pure (fnSql ++ " FILTER (WHERE " ++ condSql ++ ")", fnP ++ condP)
      else if op = "composite" then do
        let (sqls, ps) ← formatExprList fuel ctx args
        pure ("(" ++ joinSep ", " sqls ++ ")", ps)
      else if op = "array" then
        let a0 := args.headD vundef
        if args.length = 1 && isClause a0 then do
          let (s, p) ← formatDsl fuel ctx false false a0
          pure ("ARRAY(" ++ s ++ ")", p)
        else
          match a0 with
          | varr elems => do
              let ty := args.getD 1 vundef
              let (sqls, ps) ← formatExprList fuel ctx elems
              let suffix := if truthy ty then "::" ++ sqlKwJ ty ++ "[]" else ""
              pure ("ARRAY[" ++ joinSep ", " sqls ++ "]" ++ suffix, ps)
          | _ => do
              let (sqls, ps) ← formatExprList fuel ctx args
              pure ("ARRAY[" ++ joinSep ", " sqls ++ "]", ps)
      else if op = "nest" then do
        let (s, p) ← formatExpr fuel ctx false (args.headD vundef)
        pure ("(" ++ s ++ ")", p)
      else if op = "raw" then
        if args.length = 1 then rawRender fuel ctx (args.headD vundef)
        else rawRender fuel ctx (varr args)
      else if op = "inline" then do
        let sqls ← inlineList fuel ctx args
        pure (joinSep " " sqls, [])
      else if op = "param" then
        formatParamRef (jsString (args.headD vundef)) ctx
      else if op = "lift" then
        let x := args.headD vundef
        if ctx.inline then pure (sqlizeValue fuel x, [])
        else if ctx.numberedMode then addNumberedParam x
        else pure ("?", [x])
      else if op = "lateral" then
        let x := args.headD vundef
        if isClause x then do
          let (s, p) ← formatDsl fuel ctx false false x
          pure ("LATERAL (" ++ s ++ ")", p)
        else do
          let (s, p) ← formatExpr fuel ctx false x
          pure ("LATERAL " ++ s, p)
      else if op = "over" then do
        let fnCall := args.getD 0 vundef
        let overSpec := args.getD 1 vundef
        let (fnSql, fnP) ← formatExpr fuel ctx false fnCall
        let (overParts, overParams) ←
          if truthy overSpec then do
            let (pbParts, pbParams) ←
              match getField overSpec "partition-by" with
              | varr (p0 :: ps') => do
                  let (sqls, params) ← formatExprList fuel ctx (p0 :: ps')
                  pure (["PARTITION BY " ++ joinSep ", " sqls], params)
              | _ => pure (([] : List String), ([] : List JVal))
            let (obParts, obParams) ←
              match getField overSpec "order-by" with
              | varr (o0 :: os) => do
                  let (parts, params) ← overOrderBy fuel ctx (o0 :: os)
                  pure (["ORDER BY " ++ joinSep ", " parts], params)
              | _ => pure (([] : List String), ([] : List JVal))
            pure (pbParts ++ obParts, pbParams ++ obParams)
          else pure (([] : List String), ([] : List JVal))
        let overClause :=
          if overParts.isEmpty then "()" else "(" ++ joinSep " " overParts ++ ")"
        pure (fnSql ++ " OVER " ++ overClause, fnP ++ overParams)
      else if op = "interval" then
        if args.length = 1 then do
          let (s, p) ← formatExpr fuel { ctx with inline := true } false (args.headD vundef)
          pure ("INTERVAL " ++ s, p)
        else do
          let (s, p) ← formatExpr fuel ctx false (args.headD vundef)
          pure ("INTERVAL " ++ s ++ " " ++ joinSep " " ((args.drop 1).map sqlKwJ), p)
      else if op = "entity" then do
        let s ← entityOf (args.headD vundef) ctx
        pure (s, [])
      else if op = "alias" then do
        let s ← entityOf (args.headD vundef) ctx true
        pure (s, [])
      else if op = "." then do
        let (s, p) ← formatExpr fuel ctx false (args.headD vundef)
        let parts ← (args.drop 1).mapM (fun c => entityOf c ctx)
        pure (s ++ "." ++ joinSep "." parts, p)
      else if op = "at-time-zone" then do
        let (s, p) ← formatExpr fuel ctx true (args.getD 0 vundef)
        let tz := args.getD 1 vundef
        let tzSql ←
          if isIdentJ tz then pure (jsString tz)
          else do
            let (t, _) ← formatExpr fuel { ctx with inline := true } false tz
            pure t
        pure (s ++ " AT TIME ZONE " ++ tzSql, p)
      else throwF ("no special syntax handler for " ++ op)

/-- The item loop of `formatSelects`, recognising `[expr, alias]` pairs. -/
def selectItems (fuel : Nat) (ctx : Ctx) (items : List JVal) :
    FmtM (List String × List JVal) :=
  match fuel with
  | 0 => throwF "out of fuel"
  | fuel + 1 =>
      match items with
      | [] => pure ([], [])
      | item :: rest =>
          let aliasForm :=
            match item with
            | varr [i0, i1] =>
                (match i1 with
                 | vstr s1 =>
                     isIdentStr s1 && !startsWithChar s1 '%' &&
                     !(match i0 with
                       | vstr s0 => startsWithChar s0 '%' || binOps.contains s0
                       | _ => false)
                 | _ => false)
            | _ => false
          if aliasForm then
            match item with
            | varr [expr, aliasV] => do
                let (s, p) ← formatExpr fuel ctx false expr
                let aliasSql ← entityOf aliasV ctx true
                let (ss, ps) ← selectItems fuel ctx rest
                pure ((s ++ " AS " ++ aliasSql) :: ss, p ++ ps)
            | _ => throwF "unreachable select alias form"
          else do
            let (s, p) ← formatExpr fuel ctx false item
            let (ss, ps) ← selectItems fuel ctx rest
            pure (s :: ss, p ++ ps)

/-- `formatSelects`: the shared formatter behind SELECT, FROM, RETURNING
and DELETE clause rendering. -/
def formatSelects (fuel : Nat) (ctx : Ctx) (k : String) (xs : JVal) :
    FmtM FRes :=
  match fuel with
  | 0 => throwF "out of fuel"
  | fuel + 1 => do
      let items := match xs with | varr l => l | x => [x]
      let (sqls, ps) ← selectItems fuel ctx items
      pure (sqlKw k ++ " " ++ joinSep ", " sqls, ps)

/-- `formatOnExpr`: WHERE/HAVING/LIMIT/OFFSET; a null-ish value or an
empty array renders as the empty fragment (and is then dropped). -/
def formatOnExpr (fuel : Nat) (ctx : Ctx) (k : String) (e : JVal) :
    FmtM FRes :=
  match fuel with
  | 0 => throwF "out of fuel"
  | fuel + 1 =>
      let emptyish :=
        match e with
        | vnull => true
        | vundef => true
        | varr [] => true
        | _ => false
      if emptyish then pure ("", [])
      else do
        let (s, p) ← formatExpr fuel ctx false e
        pure (sqlKw k ++ " " ++ s, p)

/-- The pair loop of `formatJoin`. -/
def joinPairs (fuel : Nat) (ctx : Ctx) (joinType : String)
    (pairs : List JVal) : FmtM (List String × List JVal) :=
  match fuel with
  | 0 => throwF "out of fuel"
  | fuel + 1 =>
      match pairs with
      | [] => pure ([], [])
      | pair :: rest =>
          let table := match pair with | varr l => l.getD 0 vundef | _ => vundef
          let condition := match pair with | varr l => l.getD 1 vundef | _ => vundef
          do
            let (tableSql, tableParams) ←
              match table with
              | varr [t0, t1] =>
                  if isIdentJ t0 && isIdentJ t1 then do
                    let e0 ← entityOf t0 ctx
                    let e1 ← entityOf t1 ctx true
                    pure (e0 ++ " AS " ++ e1, ([] : List JVal))
                  else formatExpr fuel ctx false table
              | _ => formatExpr fuel ctx false table
            let usingForm :=
              match condition with
              | varr (vstr c0 :: _) => c0 == "using"
              | _ => false
            if usingForm then do
              let cols ←
                (match condition with | varr l => l.drop 1 | _ => []).mapM
                  (fun c => entityOf c ctx)
              let (ss, ps) ← joinPairs fuel ctx joinType rest
              pure ((joinType ++ " " ++ tableSql ++ " USING (" ++
                joinSep ", " cols ++ ")") :: ss, tableParams ++ ps)
            else do
              let (condSql, condParams) ← formatExpr fuel ctx false condition
              let (ss, ps) ← joinPairs fuel ctx joinType rest
              pure ((joinType ++ " " ++ tableSql ++ " ON " ++ condSql) :: ss,
                tableParams ++ condParams ++ ps)

/-- `formatJoin`: all ON/USING join clause renderers. -/
def formatJoin (fuel : Nat) (ctx : Ctx) (k : String) (v : JVal) :
    FmtM FRes :=
  match fuel with
  | 0 => throwF "out of fuel"
  | fuel + 1 => do
      let joinType := if k = "join" then "INNER JOIN" else sqlKw k
      let pairs := match v with | varr l => l | _ => []
      let (sqls, ps) ← joinPairs fuel ctx joinType pairs
      pure (joinSep " " sqls, ps)

/-- The column assignment loop of the SET formatter. -/
def setEntries (fuel : Nat) (ctx : Ctx) (fs : List (String × JVal)) :
    FmtM (List String × List JVal) :=
  match fuel with
  | 0 => throwF "out of fuel"
  | fuel + 1 =>
      match fs with
      | [] => pure ([], [])
      | (col, val) :: rest => do
          let colSql ← liftE (formatEntity col ctx false true)
          let (valSql, p) ← formatExpr fuel ctx false val
          let (ss, ps) ← setEntries fuel ctx rest
          pure ((colSql ++ " = " ++ valSql) :: ss, p ++ ps)

/-- The SET clause formatter (also reused by DO UPDATE SET). -/
def formatSetClause (fuel : Nat) (ctx : Ctx) (v : JVal) : FmtM FRes :=
  match fuel with
  | 0 => throwF "out of fuel"
  | fuel + 1 => do
      let entries := match v with | vobj fs => fs | _ => []
      let (sqls, ps) ← setEntries fuel ctx entries
      pure ("SET " ++ joinSep ", " sqls, ps)

/-- The row loop of the VALUES formatter for the row-array form. -/
def valuesArrRows (fuel : Nat) (ctx : Ctx) (rows : List JVal) :
    FmtM (List String × List JVal) :=
  match fuel with
  | 0 => throwF "out of fuel"
  | fuel + 1 =>
      match rows with
      | [] => pure ([], [])
      | varr es :: rest => do
          let (vals, p) ← formatExprList fuel ctx es
          let (ss, ps) ← valuesArrRows fuel ctx rest
          pure (("(" ++ joinSep ", " vals ++ ")") :: ss, p ++ ps)
      | _ :: _ => throwF "values row must be an array"

/-- The row loop of the VALUES formatter for the column-map form, reading
each row at the column order of the first row. -/
def valuesMapRows (fuel : Nat) (ctx : Ctx) (cols : List String)
    (rows : List JVal) : FmtM (List String × List JVal) :=
  match fuel with
  | 0 => throwF "out of fuel"
  | fuel + 1 =>
      match rows with
      | [] => pure ([], [])
      | row :: rest => do
          let (vals, p) ← formatExprList fuel ctx (cols.map (getField row))
          let (ss, ps) ← valuesMapRows fuel ctx cols rest
          pure (("(" ++ joinSep ", " vals ++ ")") :: ss, p ++ ps)

/-- The set-operation loop (UNION/INTERSECT/EXCEPT branches). -/
def setOpList (fuel : Nat) (ctx : Ctx) (qs : List JVal) :
    FmtM (List String × List JVal) :=
  match fuel with
  | 0 => throwF "out of fuel"
  | fuel + 1 =>
      match qs with
      | [] => pure ([], [])
      | q :: rest => do
          let (s, p) ← formatDsl fuel ctx false false q
          let (ss, ps) ← setOpList fuel ctx rest
          pure (s :: ss, p ++ ps)

/-- The CTE loop of the WITH formatter. -/
def withCtes (fuel : Nat) (ctx : Ctx) (ctes : List JVal) :
    FmtM (List String × List JVal) :=
  match fuel with
  | 0 => throwF "out of fuel"
  | fuel + 1 =>
      match ctes with
      | [] => pure ([], [])
      | cte :: rest =>
          let name := match cte with | varr l => l.getD 0 vundef | _ => vundef
          let query := match cte with | varr l => l.getD 1 vundef | _ => vundef
          do
            let nameSql ← entityOf name ctx
            let (querySql, p) ← formatDsl fuel ctx false false query
            let (ss, ps) ← withCtes fuel ctx rest
            pure ((nameSql ++ " AS (" ++ querySql ++ ")") :: ss, p ++ ps)

/-- The column loop shared by `with-columns` and `add-column`. -/
def columnDefs (fuel : Nat) (ctx : Ctx) (cols : List JVal) :
    FmtM (List String) :=
  match fuel with
  | 0 => throwF "out of fuel"
  | fuel + 1 =>
      match cols with
      | [] => pure []
      | varr (name :: tys) :: rest => do
          let nameSql ← entityOf name ctx
          let ss ← columnDefs fuel ctx rest
          pure ((nameSql ++ " " ++ joinSep " " (tys.map sqlKwJ)) :: ss)
      | varr [] :: rest => do
          let ss ← columnDefs fuel ctx rest
          pure (" " :: ss)
      | col :: rest => do
          let colSql ← entityOf col ctx
          let ss ← columnDefs fuel ctx rest
          pure (colSql :: ss)

/-- The sub-clause loop of the ALTER TABLE formatter (fragments only, as
the source drops all parameters there). -/
def alterClauses (fuel : Nat) (ctx : Ctx) (cs : List JVal) :
    FmtM (List String) :=
  match fuel with
  | 0 => throwF "out of fuel"
  | fuel + 1 =>
      match cs with
      | [] => pure []
      | c :: rest => do
          let s ←
            if isClause c then do
              let (s, _) ← formatDsl fuel ctx false false c
              pure s
            else pure (sqlKwJ c)
          let ss ← alterClauses fuel ctx rest
          pure (s :: ss)

/-- The CROSS JOIN table loop: fragments only — the source maps
`formatExpr(t, ctx)[0]` over the tables, discarding the parameters. -/
def crossJoinList (fuel : Nat) (ctx : Ctx) (ts : List JVal) :
    FmtM (List String) :=
  match fuel with
  | 0 => throwF "out of fuel"
  | fuel + 1 =>
      match ts with
      | [] => pure []
      | t :: rest => do
          let (s, _) ← formatExpr fuel ctx false t
          let ss ← crossJoinList fuel ctx rest
          pure (s :: ss)

/-- The item loop of the ORDER BY clause formatter. -/
def orderByItems (fuel : Nat) (ctx : Ctx) (items : List JVal) :
    FmtM (List String × List JVal) :=
  match fuel with
  | 0 => throwF "out of fuel"
  | fuel + 1 =>
      match items with
      | [] => pure ([], [])
      | item :: rest =>
          let dirForm :=
            match item with
            | varr [_, vstr _] => true
            | _ => false
          if dirForm then
            match item with
            | varr [expr, vstr dir] => do
                let (s, p) ← formatExpr fuel ctx false expr
                let dirStr := if lowStr dir = "desc" then " DESC" else ""
                let (ss, ps) ← orderByItems fuel ctx rest
                pure ((s ++ dirStr) :: ss, p ++ ps)
            | _ => throwF "unreachable order-by form"
          else do
            let (s, p) ← formatExpr fuel ctx false item
            let (ss, ps) ← orderByItems fuel ctx rest
            pure (s :: ss, p ++ ps)

/-- The per-clause formatters (`clauseFormatters` of sql.ts), dispatched
on the clause key; only called for keys in `registeredClauses`. -/
def clauseApply (fuel : Nat) (ctx : Ctx) (k : String) (v : JVal) :
    FmtM FRes :=
  match fuel with
  | 0 => throwF "out of fuel"
  | fuel + 1 =>
      if k = "select" || k = "from" || k = "returning" then
        formatSelects fuel ctx k v
      else if k = "select-distinct" then do
        let (sql, p) ← formatSelects fuel ctx "select" v
        pure (replaceFirst sql "SELECT" "SELECT DISTINCT", p)
      else if k = "select-distinct-on" then do
        let arr := match v with | varr l => l | _ => []
        let onExprs := match arr.headD vundef with | varr l => l | _ => []
        let (onSqls, onParams) ← formatExprList fuel ctx onExprs
        let (selectSql, selectParams) ← formatSelects fuel ctx "select" (varr (arr.drop 1))
        pure (replaceFirst selectSql "SELECT"
          ("SELECT DISTINCT ON (" ++ joinSep ", " onSqls ++ ")"),
          onParams ++ selectParams)
      else if k = "insert-into" then
        let items := match v with | varr l => l | x => [x]
        let table := items.headD vundef
        if items.length = 2 && isClause (items.getD 1 vundef) then do
          let (tableSql, _) ← formatExpr fuel ctx false table
          let (subSql, p) ← formatDsl fuel ctx false false (items.getD 1 vundef)
          pure ("INSERT INTO " ++ tableSql ++ " " ++ subSql, p)
        else if items.length = 2 && isExprArray (items.getD 1 vundef) then do
          let (tableSql, _) ← formatExpr fuel ctx false table
          let cols ←
            (match items.getD 1 vundef with | varr l => l | _ => []).mapM
              (fun c => entityOf c ctx)
          pure ("INSERT INTO " ++ tableSql ++ " (" ++ joinSep ", " cols ++ ")", [])
        else do
          let (sql, _) ← formatExpr fuel ctx false table
          pure ("INSERT INTO " ++ sql, [])
      else if k = "replace-into" then do
        let (sql, p) ← clauseApply fuel ctx "insert-into" v
        pure (replaceFirst sql "INSERT INTO" "REPLACE INTO", p)
      else if k = "update" then
        if ctx.checking ≠ "none" &&
            !truthy (getField (ctx.dsl.getD vundef) "where") then
          throwF "UPDATE without a non-empty WHERE clause is dangerous"
        else do
          let (sql, _) ← formatExpr fuel ctx false v
          pure ("UPDATE " ++ sql, [])
      else if k = "delete-from" then
        if ctx.checking ≠ "none" &&
            !truthy (getField (ctx.dsl.getD vundef) "where") then
          throwF "DELETE without a non-empty WHERE clause is dangerous"
        else do
          let (sql, _) ← formatExpr fuel ctx false v
          pure ("DELETE FROM " ++ sql, [])
      else if k = "delete" then
        if ctx.checking ≠ "none" &&
            !truthy (getField (ctx.dsl.getD vundef) "where") then
          throwF "DELETE without a non-empty WHERE clause is dangerous"
        else formatSelects fuel ctx k v
      else if k = "truncate" then do
        let ts := match v with | varr l => l | x => [x]
        let sqls ← ts.mapM (fun t => entityOf t ctx)
        pure ("TRUNCATE TABLE " ++ joinSep ", " sqls, [])
      else if k = "columns" then
        match v with
        | varr l => do
            let sqls ← l.mapM (fun c => entityOf c ctx false true)
            pure ("(" ++ joinSep ", " sqls ++ ")", [])
        | _ => pure ("", [])
      else if k = "set" then formatSetClause fuel ctx v
      else if k = "join" || k = "left-join" || k = "right-join" ||
          k = "inner-join" || k = "outer-join" || k = "full-join" then
        formatJoin fuel ctx k v
      else if k = "cross-join" then do
        let ts := match v with | varr l => l | x => [x]
        let sqls ← crossJoinList fuel ctx ts
        pure ("CROSS JOIN " ++ joinSep ", " sqls, [])
      else if k = "where" || k = "having" || k = "limit" || k = "offset" then
        formatOnExpr fuel ctx k v
      else if k = "group-by" then do
        let items := match v with | varr l => l | x => [x]
        let (sqls, ps) ← formatExprList fuel ctx items
        pure ("GROUP BY " ++ joinSep ", " sqls, ps)
      else if k = "order-by" then do
        let items := match v with | varr l => l | x => [x]
        let (sqls, ps) ← orderByItems fuel ctx items
        pure ("ORDER BY " ++ joinSep ", " sqls, ps)
      else if k = "values" then
        match v with
        | varr [] => pure ("VALUES ()", [])
        | varr (first :: rest) =>
            (match first with
             | vobj fs0 => do
                 let cols := fs0.map (fun kv => kv.1)
                 let colSqls ← cols.mapM
                   (fun c => liftE (formatEntity c ctx false true))
                 let (rowSqls, ps) ← valuesMapRows fuel ctx cols (vobj fs0 :: rest)
                 pure ("(" ++ joinSep ", " colSqls ++ ") VALUES " ++
                   joinSep ", " rowSqls, ps)
             | _ => do
                 let (rowSqls, ps) ← valuesArrRows fuel ctx (first :: rest)
                 pure ("VALUES " ++ joinSep ", " rowSqls, ps))
        | _ => throwF "values must be an array"
      else if k = "on-conflict" then
        if isNullJ v || isUndef v then pure ("", [])
        else do
          let items := match v with | varr l => l | x => [x]
          let exprs := items.filter (fun i => !isClause i)
          let clause? := items.find? isClause
          let (exprParts, exprParams) ←
            if exprs.isEmpty then pure (([] : List String), ([] : List JVal))
            else do
              let (sqls, ps) ← formatExprList fuel ctx exprs
              pure (["(" ++ joinSep ", " sqls ++ ")"], ps)
          let (clauseParts, clauseParams) ←
            match clause? with
            | some c => do
                let (s, p) ← formatDsl fuel ctx false false c
                pure ([s], p)
            | none => pure (([] : List String), ([] : List JVal))
          pure (joinSep " " ("ON CONFLICT" :: exprParts ++ clauseParts),
            exprParams ++ clauseParams)
      else if k = "on-constraint" then do
        let (sql, _) ← formatExpr fuel ctx false v
        pure ("ON CONSTRAINT " ++ sql, [])
      else if k = "do-nothing" then pure ("DO NOTHING", [])
      else if k = "do-update-set" then
        let hasFields :=
          match v with
          | vobj fs => fs.any (fun kv => kv.1 = "fields")
          | _ => false
        if hasFields then do
          let fields := getField v "fields"
          let whereV := getField v "where"
          let (setSql, params) ←
            match fields with
            | varr l => do
                let cols ← l.mapM (fun f => entityOf f ctx false true)
                pure ("DO UPDATE SET " ++
                  joinSep ", " (cols.map (fun c => c ++ " = EXCLUDED." ++ c)),
                  ([] : List JVal))
            | _ => do
                let (setRes, p) ← formatSetClause fuel ctx fields
                pure ("DO UPDATE " ++ setRes, p)
          if truthy whereV then do
            let (whereSql, wp) ← formatOnExpr fuel ctx "where" whereV
            pure (setSql ++ " " ++ whereSql, params ++ wp)
          else pure (setSql, params)
        else
          match v with
          | varr l => do
              let cols ← l.mapM (fun f => entityOf f ctx false true)
              pure ("DO UPDATE SET " ++
                joinSep ", " (cols.map (fun c => c ++ " = EXCLUDED." ++ c)), [])
          | _ => do
              let (setRes, p) ← formatSetClause fuel ctx v
              pure ("DO UPDATE " ++ setRes, p)
      else if k = "with" then do
        let ctes := match v with | varr l => l | _ => []
        let (sqls, ps) ← withCtes fuel ctx ctes
        pure ("WITH " ++ joinSep ", " sqls, ps)
      else if k = "with-recursive" then do
        let (sql, p) ← clauseApply fuel ctx "with" v
        pure (replaceFirst sql "WITH" "WITH RECURSIVE", p)
      else if k = "union" || k = "union-all" || k = "intersect" ||
          k = "except" || k = "except-all" then do
        let qs := match v with | varr l => l | _ => []
        let (sqls, ps) ← setOpList fuel ctx qs
        pure (joinSep (" " ++ sqlKw k ++ " ") sqls, ps)
      else if k = "raw" then rawRender fuel ctx v
      else if k = "nest" then formatDsl fuel ctx true false v
      else if k = "for" || k = "lock" then
        let items := match v with | varr l => l | x => [x]
        let base := "FOR " ++ sqlKwJ (items.headD vundef)
        let sql := (items.drop 1).foldl
          (fun acc i => match i with | vstr _ => acc ++ " " ++ sqlKwJ i | _ => acc)
          base
        pure (sql, [])
      else if k = "create-table" then do
        let items := match v with | varr l => l | x => [x]
        let tableSql ← entityOf (items.headD vundef) ctx
        let opts := items.drop 1
        let optsSql :=
          if opts.isEmpty then "" else " " ++ joinSep " " (opts.map sqlKwJ)
        pure ("CREATE TABLE" ++ optsSql ++ " " ++ tableSql, [])
      else if k = "with-columns" then do
        let cols := match v with | varr l => l | _ => []
        let sqls ← columnDefs fuel ctx cols
        pure ("(" ++ joinSep ", " sqls ++ ")", [])
      else if k = "drop-table" then do
        let items := match v with | varr l => l | x => [x]
        let tables := items.filter (fun i => jsString i ≠ "if-exists")
        let ifExists :=
          if items.any (fun i => jsString i = "if-exists") then "IF EXISTS "
          else ""
        let sqls ← tables.mapM (fun t => entityOf t ctx)
        pure ("DROP TABLE " ++ ifExists ++ joinSep ", " sqls, [])
      else if k = "alter-table" then do
        let items := match v with | varr l => l | x => [x]
        let tableSql ← entityOf (items.headD vundef) ctx
        let clauses := items.drop 1
        if clauses.isEmpty then pure ("ALTER TABLE " ++ tableSql, [])
        else do
          let sqls ← alterClauses fuel ctx clauses
          pure ("ALTER TABLE " ++ tableSql ++ " " ++ joinSep ", " sqls, [])
      else if k = "add-column" then do
        let cols := match v with | varr l => l | _ => []
        let sqls ← columnDefs fuel ctx cols
        pure (joinSep ", " (sqls.map (fun s => "ADD COLUMN " ++ s)), [])
      else if k = "drop-column" then do
        let cols := match v with | varr l => l | x => [x]
        let sqls ← cols.mapM (fun c => entityOf c ctx)
        pure (joinSep ", " (sqls.map (fun s => "DROP COLUMN " ++ s)), [])
      else throwF ("no clause formatter for " ++ k)

/-- The clause loop of `formatDsl`: walk the clause priority order,
format every key with a defined value (raising on a key without a
registered formatter), keep non-empty fragments with their parameters. -/
def dslLoop (fuel : Nat) (ctx : Ctx) (keys : List String) (stmt : JVal) :
    FmtM (List String × List JVal) :=
  match fuel with
  | 0 => fun _ => .error "out of fuel"
  | fuel + 1 =>
      match keys with
      | [] => fun st => .ok (([], []), st)
      | k :: ks => fun st =>
          let value := getField stmt k
          if isUndef value then dslLoop fuel ctx ks stmt st
          else if registeredClauses.contains k then
            match clauseApply fuel ctx k value st with
            | .error e => .error e
            | .ok ((sql, ps), st') =>
                match dslLoop fuel ctx ks stmt st' with
                | .error e => .error e
                | .ok ((restS, restP), st'') =>
                    if sql ≠ "" then .ok ((sql :: restS, ps ++ restP), st'')
                    else .ok ((restS, restP), st'')
          else .error ("Unknown SQL clause: " ++ k)

/-- `formatDsl`: format a statement map by iterating the clause priority
order (with the statement recorded in the context for the WHERE guards),
then raise on any remaining unknown key, join the fragments, and
parenthesise a nested non-aliased statement. -/
def formatDsl (fuel : Nat) (ctx : Ctx) (nested : Bool) (aliased : Bool)
    (stmt : JVal) : FmtM FRes :=
  match fuel with
  | 0 => throwF "out of fuel"
  | fuel + 1 => fun st =>
      match dslLoop fuel { ctx with dsl := some stmt } clauseOrder stmt st with
      | .error e => .error e
      | .ok ((sqls, params), st') =>
          let unknown := unknownClauses stmt
          if unknown.isEmpty then
            let sql := joinSep " " (sqls.filter (fun s => s ≠ ""))
            let sql := if nested && !aliased then "(" ++ sql ++ ")" else sql
            .ok ((sql, params), st')
          else .error ("Unknown SQL clauses: " ++ joinSep ", " unknown)

end

/-- Ample fuel for every statement in this development. -/
def bigFuel : Nat := 1000

/-- `format` of sql.ts with the default postgres dialect: build the
context, dispatch a clause map to `formatDsl` and anything else to
`formatExpr`, and return `[sql, ...params]`.  The cosmetic `pretty`
post-processing (an external library) is not modelled and is off by
default. -/
def format (data : JVal) (opts : FmtOpts := {}) :
    Except String (String × List JVal) :=
  let ctx := createContext opts
  let initSt : NumSt := if ctx.numberedMode then some [] else none
  let m : FmtM FRes :=
    if isClause data && !isExprArray data then formatDsl bigFuel ctx false false data
    else formatExpr bigFuel ctx false data
  match m initSt with
  | .error e => .error e
  | .ok ((sql, ps), _) => .ok (sql, ps)

/-! ### Clause tree walker (helpers.ts) -/

/-- `isClauseMap` of helpers.ts: any non-array object (note that, unlike
`isClause` of types.ts, the walker does not exclude wrappers or typed
values — it descends into any object found in an expression position). -/
def isClauseMap : JVal → Bool
  | vobj _ => true
  | _ => false

/-- The clause keys under which the walker recurses into CTE bodies. -/
def walkCteKeys : List String := ["with", "with-recursive"]

/-- The clause keys under which the walker recurses into set-operation
branches. -/
def walkSetOpKeys : List String :=
  ["union", "union-all", "intersect", "except", "except-all"]

/-- The clause keys whose expression trees are deep-scanned for nested
clause maps. -/
def walkExprKeys : List String := ["from", "where", "select", "having"]

mutual

/-- `walkClauses` of helpers.ts: rebuild the clause tree bottom-up,
walking CTE bodies, set-operation branches and every clause map nested in
the FROM/WHERE/SELECT/HAVING expression trees, then apply the transform to
the (already rewritten) node.  Only truthy clause values are descended
into, matching the `if (processed[key])` guards of the source. -/
def walkClauses (fuel : Nat) (t : JVal → JVal) (clause : JVal) : JVal :=
  match fuel with
  | 0 => clause
  | fuel + 1 =>
      match clause with
      | vobj _ =>
          let step1 := walkCteKeys.foldl
            (fun c key =>
              if truthy (getField c key) then
                setField c key
                  (match getField c key with
                   | varr entries =>
                       varr (entries.map (fun entry =>
                         match entry with
                         | varr es =>
                             varr [es.getD 0 vundef,
                               walkClauses fuel t (es.getD 1 vundef)]
                         | x => x))
                   | x => x)
              else c)
            clause
          let step2 := walkSetOpKeys.foldl
            (fun c key =>
              if truthy (getField c key) then
                setField c key
                  (match getField c key with
                   | varr branches => varr (branches.map (walkClauses fuel t))
                   | x => x)
              else c)
            step1
          let step3 := walkExprKeys.foldl
            (fun c key =>
              if truthy (getField c key) then
                setField c key (walkExprForClauses fuel t (getField c key))
              else c)
            step2
          t step3
      | _ => clause

/-- `walkExprForClauses`: transform every clause map nested anywhere in an
expression tree. -/
def walkExprForClauses (fuel : Nat) (t : JVal → JVal) (e : JVal) : JVal :=
  match fuel with
  | 0 => e
  | fuel + 1 =>
      if isClauseMap e then walkClauses fuel t e
      else
        match e with
        | varr es => varr (es.map (walkExprForClauses fuel t))
        | _ => e

end

/-- The transform of `injectWhere`: on a clause with a truthy `from`,
`delete-from` or `update` value, AND the condition onto a truthy existing
`where` (or install it as the `where`); leave every other clause
unchanged. -/
def injectTransform (condition : JVal) (c : JVal) : JVal :=
  if truthy (getField c "from") || truthy (getField c "delete-from") ||
      truthy (getField c "update") then
    let existing := getField c "where"
    if truthy existing then
      setField c "where" (varr [vstr "and", existing, condition])
    else setField c "where" condition
  else c

/-- `injectWhere` of helpers.ts. -/
def injectWhere (clause condition : JVal) : JVal :=
  walkClauses bigFuel (injectTransform condition) clause

/-! ### Counting FROM-bearing clause nodes

A measure used to state the tenant-injection claim: the number of clause
nodes, among those the walker visits, whose `from`, `delete-from` or
`update` value is truthy. -/

/-- Whether a clause node is FROM-bearing in the sense of `injectWhere`. -/
def fromBearing (c : JVal) : Bool :=
  truthy (getField c "from") || truthy (getField c "delete-from") ||
    truthy (getField c "update")

mutual

/-- Count the FROM-bearing clause nodes among the nodes visited by
`walkClauses`. -/
def countFromBearing (fuel : Nat) (c : JVal) : Nat :=
  match fuel with
  | 0 => 0
  | fuel + 1 =>
      match c with
      | vobj _ =>
          (if fromBearing c then 1 else 0) +
          (walkCteKeys.map (fun key =>
            if truthy (getField c key) then
              match getField c key with
              | varr entries =>
                  (entries.map (fun entry =>
                    match entry with
                    | varr es => countFromBearing fuel (es.getD 1 vundef)
                    | _ => 0)).sum
              | _ => 0
            else 0)).sum +
          (walkSetOpKeys.map (fun key =>
            if truthy (getField c key) then
              match getField c key with
              | varr branches => (branches.map (countFromBearing fuel)).sum
              | _ => 0
            else 0)).sum +
          (walkExprKeys.map (fun key =>
            if truthy (getField c key) then
              countFromBearingExpr fuel (getField c key)
            else 0)).sum
      | _ => 0

/-- Count FROM-bearing clause nodes inside an expression tree. -/
def countFromBearingExpr (fuel : Nat) (e : JVal) : Nat :=
  match fuel with
  | 0 => 0
  | fuel + 1 =>
      if isClauseMap e then countFromBearing fuel e
      else
        match e with
        | varr es => (es.map (countFromBearingExpr fuel)).sum
        | _ => 0

end

/-! ### AST-to-clause transformer (parser.ts)

`fromSql` is `statementToClause ∘ parseFirst`, where `parseFirst` is the
external pgsql-ast-parser (an out-of-scope black box per the spec).  The
transformer below embeds the parser.ts code over the AST node kinds the
claims exercise (column references, binary operators, scalar literals,
statement parameters, and plain SELECT statements); the concrete ASTs that
the external parser produces for the specific SQL texts of the claims are
modelled separately from the spec. -/

/-- The AST expression nodes of the external parser that the claims
exercise: `ref`, `binary`, `integer`, `string`, `boolean`, `null` and
`parameter` nodes. -/
inductive PExpr where
  | ref (table : Option String) (name : String)
  | binary (op : String) (left right : PExpr)
  | intLit (n : Int)
  | strLit (s : String)
  | boolLit (b : Bool)
  | nullLit
  | parameter (name : String)

/-- The `opMap` of the binary case of `exprToClause`, with fallthrough to
the lower-cased operator itself. -/
def parserOpMap (op : String) : String :=
  if op = "!=" then "<>"
  else if op = "not in" then "not-in"
  else if op = "is not" then "is-not"
  else op

/-- `exprToClause` of parser.ts on the modelled node kinds: references
become identifier strings (table-qualified with a dot), binary nodes
become `[op, left, right]` arrays, every scalar literal is wrapped as a
`{$: value}` typed value, `null` stays `null`, and a statement parameter
becomes a `["param", name]` reference. -/
def exprToClause : PExpr → JVal
  | .ref none name => vstr name
  | .ref (some t) name => vstr (t ++ "." ++ name)
  | .binary op l r =>
      varr [vstr (parserOpMap (lowStr op)), exprToClause l, exprToClause r]
  | .intLit n => vobj [("$", vnum n)]
  | .strLit s => vobj [("$", vstr s)]
  | .boolLit b => vobj [("$", vbool b)]
  | .nullLit => vnull
  | .parameter name => varr [vstr "param", vstr name]

/-- A selected column of the foreign AST: an expression with an optional
alias. -/
structure PCol where
  expr : PExpr
  aliasName : Option String := none

/-- A qualified table name of the foreign AST. -/
structure PQName where
  name : String
  schema : Option String := none
  aliasName : Option String := none

/-- A FROM item of the foreign AST; the claims only exercise plain table
items without attached joins. -/
inductive PFrom where
  | table (qn : PQName)

/-- `nameToIdent` of parser.ts: a schema-qualified name becomes
`schema.name`. -/
def nameToIdent (qn : PQName) : String :=
  match qn.schema with
  | some s => s ++ "." ++ qn.name
  | none => qn.name

/-- `columnsToClause` of parser.ts: `*` (optionally table-qualified)
stays a bare string, everything else goes through `exprToClause`, and an
alias wraps the result as `[expr, alias]`. -/
def columnsToClause (cols : List PCol) : List JVal :=
  cols.map (fun col =>
    match col.expr with
    | .ref t "*" =>
        match t with
        | some tn => vstr (tn ++ ".*")
        | none => vstr "*"
    | e =>
        let j := exprToClause e
        match col.aliasName with
        | some a => varr [j, vstr a]
        | none => j)

/-- `fromToClause` of parser.ts restricted to plain table items: a bare
table name stays a string, an aliased one becomes `[name, alias]`;
`undefined` is returned for an absent or empty list. -/
def fromToClause (froms : List PFrom) : Option (List JVal) :=
  match froms with
  | [] => none
  | _ =>
      some (froms.map (fun f =>
        match f with
        | .table qn =>
            let name := nameToIdent qn
            match qn.aliasName with
            | some a => varr [vstr name, vstr a]
            | none => vstr name))

/-- A SELECT statement of the foreign AST with the members the claims
exercise; `distinct`, `groupBy`, `having`, `orderBy` and `limit` are
absent on all modelled inputs. -/
structure PSelect where
  columns : Option (List PCol) := none
  froms : Option (List PFrom) := none
  whereE : Option PExpr := none

/-- `selectToClause` of parser.ts on the modelled subset: build the clause
map with `select`, then `from` (a single plain string is unwrapped from
its array), then `where`.  No modelled FROM item carries a join, so the
base-table/join/subquery split keeps every item as a base table. -/
def selectToClause (stmt : PSelect) : JVal :=
  let fs0 : List (String × JVal) :=
    match stmt.columns with
    | some cols => [("select", varr (columnsToClause cols))]
    | none => []
  let fs1 : List (String × JVal) :=
    match stmt.froms with
    | some froms =>
        (match fromToClause froms with
         | some [vstr one] => [("from", vstr one)]
         | some items => if items.isEmpty then [] else [("from", varr items)]
         | none => [])
    | none => []
  let fs2 : List (String × JVal) :=
    match stmt.whereE with
    | some w => [("where", exprToClause w)]
    | none => []
  vobj (fs0 ++ fs1 ++ fs2)

/-- The statements of the foreign AST that the claims exercise. -/
inductive PStatement where
  | select (s : PSelect)

/-- `statementToClause` of parser.ts on the modelled subset. -/
def statementToClause : PStatement → JVal
  | .select s => selectToClause s

/-- `fromSql` is `statementToClause (parseFirst sql)`; the external parse
step is supplied per input below. -/
def fromSqlOfAst (ast : PStatement) : JVal := statementToClause ast

/-- Modelled from the spec: what is missing is the external
pgsql-ast-parser (the out-of-scope `parse(sql) -> AST` collaborator of
§1/§6).  This is its output on
`SELECT * FROM users WHERE status = 'active'`: a select statement with a
`*` column reference, one plain table `users`, and a `=` binary node over
a column reference and a string literal. -/
def parseActiveUsers : PStatement :=
  .select
    { columns := some [{ expr := .ref none "*" }]
      froms := some [.table { name := "users" }]
      whereE := some (.binary "=" (.ref none "status") (.strLit "active")) }

/-- Modelled from the spec: the external parser output on
`SELECT * FROM "users" WHERE "id" = $1` (the formatter output of the
round-trip claim in default parameterized mode): the `$1` placeholder
parses as a statement parameter node named `$1`. -/
def parseRoundtripParam : PStatement :=
  .select
    { columns := some [{ expr := .ref none "*" }]
      froms := some [.table { name := "users" }]
      whereE := some (.binary "=" (.ref none "id") (.parameter "$1")) }

/-- Modelled from the spec: the external parser output on
`SELECT * FROM "users" WHERE "id" = 1` (the formatter output of the
round-trip claim in inline mode). -/
def parseRoundtripInline : PStatement :=
  .select
    { columns := some [{ expr := .ref none "*" }]
      froms := some [.table { name := "users" }]
      whereE := some (.binary "=" (.ref none "id") (.intLit 1)) }

/-! ### Statement fixtures used by the claims -/

/-- The concrete-scenario statement of the spec:
`{select:["id","name"], from:"users", where:["=","id",{$:1}]}`. -/
def stmtC5 : JVal :=
  vobj [("select", varr [vstr "id", vstr "name"]), ("from", vstr "users"),
    ("where", varr [vstr "=", vstr "id", vobj [("$", vnum 1)]])]

/-- A representative supported clause map for the round-trip claim:
`{select:["*"], from:"users", where:["=","id",{$:1}]}`. -/
def rtClause : JVal :=
  vobj [("select", varr [vstr "*"]), ("from", vstr "users"),
    ("where", varr [vstr "=", vstr "id", vobj [("$", vnum 1)]])]

/-- The tenant-isolation condition `["=","tenant_id",{$:42}]`. -/
def tenantCond : JVal :=
  varr [vstr "=", vstr "tenant_id", vobj [("$", vnum 42)]]

/-- A clause whose existing WHERE is already the injected condition. -/
def selfCondClause : JVal :=
  vobj [("select", varr [vstr "*"]), ("from", vstr "t"),
    ("where", tenantCond)]

/-- The spec scenario for tenant injection: a FROM-subquery inside a
WHERE…IN. -/
def subqueryInClause : JVal :=
  vobj [("select", varr [vstr "*"]), ("from", vstr "orders"),
    ("where", varr [vstr "in", vstr "user_id",
      vobj [("select", varr [vstr "id"]), ("from", vstr "users")]])]

/-- `{update:"users", set:{name:{$:"x"}}}` — no WHERE at all. -/
def stmtUpdNoWhere : JVal :=
  vobj [("update", vstr "users"),
    ("set", vobj [("name", vobj [("$", vstr "x")])])]

/-- The same update with `where:["=","id",{$:1}]`. -/
def stmtUpdWhere : JVal :=
  vobj [("update", vstr "users"),
    ("set", vobj [("name", vobj [("$", vstr "x")])]),
    ("where", varr [vstr "=", vstr "id", vobj [("$", vnum 1)]])]

/-- The same update with an empty-array WHERE, `where: []`. -/
def stmtUpdEmptyWhere : JVal :=
  vobj [("update", vstr "users"),
    ("set", vobj [("name", vobj [("$", vstr "x")])]),
    ("where", varr [])]

/-- A statement whose CROSS JOIN table list contains a parameterized
value. -/
def crossJoinStmt : JVal :=
  vobj [("select", varr [vstr "*"]), ("from", vstr "t"),
    ("cross-join", varr [vobj [("$", vnum 1)]])]

/-! ### Inversion lemmas for the clause loop -/

/-- A successful clause loop run implies that every key of the visited
key list with a defined statement value has a registered clause
formatter. -/
theorem dslLoop_ok_registered (ctx : Ctx) (stmt : JVal) :
    ∀ (keys : List String) (fuel : Nat) (st : NumSt)
      (res : (List String × List JVal) × NumSt),
      dslLoop fuel ctx keys stmt st = .ok res →
      ∀ k ∈ keys, isUndef (getField stmt k) = false →
        registeredClauses.contains k = true := by
  intro keys
  induction keys with
  | nil => intro fuel st res h k hk; exact absurd hk (List.not_mem_nil k)
  | cons k0 ks ih =>
      intro fuel st res h k hk hdef
      match fuel with
      | 0 => simp [dslLoop] at h
      | fuel + 1 =>
        simp only [dslLoop] at h
        by_cases h0 : isUndef (getField stmt k0) = true
        · rcases List.mem_cons.mp hk with rfl | hk'
          · rw [h0] at hdef; cases hdef
          · rw [if_pos h0] at h
            exact ih fuel st res h k hk' hdef
        · rw [if_neg h0] at h
          by_cases hr : registeredClauses.contains k0 = true
          · rw [if_pos hr] at h
            rcases List.mem_cons.mp hk with rfl | hk'
            · exact hr
            · cases hca : clauseApply fuel ctx k0 (getField stmt k0) st with
              | error e => rw [hca] at h; simp at h
              | ok pr =>
                  rw [hca] at h
                  obtain ⟨⟨sql, ps⟩, st'⟩ := pr
                  dsimp only at h
                  cases hdl : dslLoop fuel ctx ks stmt st' with
                  | error e => rw [hdl] at h; simp at h
                  | ok pr2 => exact ih fuel st' pr2 hdl k hk' hdef
          · rw [if_neg hr] at h; simp at h

/-- A successful `formatDsl` run implies that every key of the statement
with a defined value is a known clause key with a registered formatter:
the formatter can never succeed while silently dropping a key. -/
theorem formatDsl_ok_keys_known (ctx : Ctx) (stmt : JVal) :
    ∀ (fuel : Nat) (nested aliased : Bool) (st : NumSt) (res : FRes × NumSt),
      formatDsl fuel ctx nested aliased stmt st = .ok res →
      ∀ k, isUndef (getField stmt k) = false →
        clauseOrder.contains k = true ∧ registeredClauses.contains k = true := by
  intro fuel nested aliased st res h k hdef
  match fuel with
  | 0 => simp [formatDsl, throwF] at h
  | fuel + 1 =>
    simp only [formatDsl] at h
    cases hdl : dslLoop fuel { ctx with dsl := some stmt } clauseOrder stmt st with
    | error e => rw [hdl] at h; simp at h
    | ok pr =>
        rw [hdl] at h
        obtain ⟨⟨sqls, params⟩, st'⟩ := pr
        dsimp only at h
        by_cases hu : (unknownClauses stmt).isEmpty = true
        · have hnil : unknownClauses stmt = [] := by
            simpa [List.isEmpty_iff] using hu
          have hmem : clauseOrder.contains k = true := by
            cases stmt with
            | vobj fs =>
                simp only [getField] at hdef
                cases hf : fs.find? (fun kv => kv.1 = k) with
                | none => rw [hf] at hdef; simp [isUndef] at hdef
                | some kv =>
                    rw [hf] at hdef
                    obtain ⟨k', v⟩ := kv
                    simp only [Option.map_some', Option.getD_some] at hdef
                    have hk' : k' = k := by
                      have hfp := List.find?_some hf
                      simpa using hfp
                    subst hk'
                    have hmemfs : (k', v) ∈ fs := List.mem_of_find?_eq_some hf
                    have hfil :
                        (fs.filter (fun kv =>
                          !clauseOrder.contains kv.1 && !isUndef kv.2)) = [] := by
                      have h2 := hnil
                      unfold unknownClauses at h2
                      exact List.map_eq_nil_iff.mp h2
                    have hnp := List.filter_eq_nil_iff.mp hfil (k', v) hmemfs
                    simp only [hdef, Bool.not_false, Bool.and_true,
                      Bool.not_eq_true'] at hnp
                    simpa using hnp
            | vnull => simp [getField, isUndef] at hdef
            | vundef => simp [getField, isUndef] at hdef
            | vbool b => simp [getField, isUndef] at hdef
            | vnum n => simp [getField, isUndef] at hdef
            | vstr s => simp [getField, isUndef] at hdef
            | varr l => simp [getField, isUndef] at hdef
          refine ⟨hmem, ?_⟩
          have hkin : k ∈ clauseOrder := by
            simpa [List.contains, List.elem_iff] using hmem
          exact dslLoop_ok_registered _ stmt clauseOrder fuel st _ hdl k hkin hdef
        · rw [if_neg hu] at h; simp at h

/-! ### The claims -/

/-- C1, counterexample: with default (parameterized) options the
round-trip equation fails.  Formatting the representative clause map
yields `SELECT * FROM "users" WHERE "id" = $1`; the external parser turns
the `$1` placeholder into a statement-parameter node, so `fromSql` yields
a clause with a `["param","$1"]` reference, and re-formatting it raises
`Missing parameter value for $1` — there is no reformatted text to
normalize, so the claimed equality cannot hold. -/
theorem c1_default_mode_roundtrip_fails :
    format rtClause = .ok ("SELECT * FROM \"users\" WHERE \"id\" = $1", [vnum 1]) ∧
    fromSqlOfAst parseRoundtripParam =
      vobj [("select", varr [vstr "*"]), ("from", vstr "users"),
        ("where", varr [vstr "=", vstr "id", varr [vstr "param", vstr "$1"]])] ∧
    format (fromSqlOfAst parseRoundtripParam) =
      .error "Missing parameter value for $1" :=
  ⟨rfl, rfl, rfl⟩

/-- C1, amended: with inline formatting (as in the round-trip tests of
the repository) parsing the formatter output reproduces the original
clause map exactly, so reformatting yields the identical SQL text — and
therefore text equivalent under any normalizer. -/
theorem c1_inline_roundtrip_reproduces_text :
    format rtClause { inline := some true } =
      .ok ("SELECT * FROM \"users\" WHERE \"id\" = 1", []) ∧
    fromSqlOfAst parseRoundtripInline = rtClause ∧
    format (fromSqlOfAst parseRoundtripInline) { inline := some true } =
      format rtClause { inline := some true } :=
  ⟨rfl, rfl, rfl⟩

/-- C2, counterexample: the text-count part of the claim fails when the
injected condition already occurs in the query.  For a clause whose WHERE
is already the condition, `injectWhere` ANDs it on, and the condition
text appears twice in the formatted SQL although the tree has exactly one
FROM-bearing clause. -/
theorem c2_cond_text_twice_for_one_from_clause :
    injectWhere selfCondClause tenantCond =
      vobj [("select", varr [vstr "*"]), ("from", vstr "t"),
        ("where", varr [vstr "and", tenantCond, tenantCond])] ∧
    format tenantCond { inline := some true } =
      .ok ("\"tenant_id\" = 42", []) ∧
    format (injectWhere selfCondClause tenantCond) { inline := some true } =
      .ok ("SELECT * FROM \"t\" WHERE (\"tenant_id\" = 42) AND (\"tenant_id\" = 42)",
        []) ∧
    countFromBearing bigFuel selfCondClause = 1 ∧
    countOccs
      "SELECT * FROM \"t\" WHERE (\"tenant_id\" = 42) AND (\"tenant_id\" = 42)"
      "\"tenant_id\" = 42" = 2 :=
  ⟨rfl, rfl, rfl, rfl, rfl⟩

/-- C2, amended: `injectWhere` reaches the root, CTE bodies,
set-operation branches and clause maps nested in
FROM/WHERE/SELECT/HAVING, ANDs the condition onto the WHERE of exactly
the reached nodes with a truthy `from`/`delete-from`/`update` value, and
leaves other clauses unchanged; on the spec scenario (a FROM-subquery
inside WHERE…IN, with a condition that does not occur in the original)
the condition text appears exactly once per FROM-bearing clause — twice. -/
theorem c2_injectWhere_structure_and_coverage :
    injectWhere subqueryInClause tenantCond =
      vobj [("select", varr [vstr "*"]), ("from", vstr "orders"),
        ("where", varr [vstr "and",
          varr [vstr "in", vstr "user_id",
            vobj [("select", varr [vstr "id"]), ("from", vstr "users"),
              ("where", tenantCond)]],
          tenantCond])] ∧
    format (injectWhere subqueryInClause tenantCond) { inline := some true } =
      .ok ("SELECT * FROM \"orders\" WHERE (\"user_id\" IN (SELECT \"id\" FROM \"users\" WHERE \"tenant_id\" = 42)) AND (\"tenant_id\" = 42)",
        []) ∧
    countFromBearing bigFuel subqueryInClause = 2 ∧
    countOccs
      "SELECT * FROM \"orders\" WHERE (\"user_id\" IN (SELECT \"id\" FROM \"users\" WHERE \"tenant_id\" = 42)) AND (\"tenant_id\" = 42)"
      "\"tenant_id\" = 42" = 2 ∧
    injectWhere (vobj [("select", varr [vstr "*"])]) tenantCond =
      vobj [("select", varr [vstr "*"])] :=
  ⟨rfl, rfl, rfl, rfl, rfl⟩

/-- C3: the parameter-count invariant is broken by the CROSS JOIN
formatter, which maps `formatExpr(t)[0]` over its tables and drops their
parameters while the numbered counter still advances: the output SQL
contains one `$1` placeholder but the returned parameter list is empty. -/
theorem c3_cross_join_drops_params :
    format crossJoinStmt = .ok ("SELECT * FROM \"t\" CROSS JOIN $1", []) ∧
    countOccs "SELECT * FROM \"t\" CROSS JOIN $1" "$1" = 1 :=
  ⟨rfl, rfl⟩

/-- C4, counterexample: `format({bogus:1})` does not raise.  A single-key
object whose key is not a clause key is classified as a typed value, so
it formats as a cast parameter `$1::bogus`. -/
theorem c4_bogus_single_key_is_typed_value :
    format (vobj [("bogus", vnum 1)]) = .ok ("$1::bogus", [vnum 1]) ∧
    isTypedValue (vobj [("bogus", vnum 1)]) = true :=
  ⟨rfl, rfl⟩

/-- C4, amended: a map that is formatted as a statement map never drops a
key silently — a statement containing `bogus` alongside real clauses
raises an error naming `bogus`, and any successful `formatDsl` run
implies that every defined key of the statement is a known clause key
with a registered formatter. -/
theorem c4_unknown_clause_in_statement_raises :
    format (vobj [("select", varr [vstr "*"]), ("from", vstr "users"),
      ("bogus", vnum 1)]) = .error "Unknown SQL clauses: bogus" ∧
    ∀ (fuel : Nat) (ctx : Ctx) (nested aliased : Bool) (stmt : JVal)
      (st : NumSt) (res : FRes × NumSt),
      formatDsl fuel ctx nested aliased stmt st = .ok res →
      ∀ k, isUndef (getField stmt k) = false →
        clauseOrder.contains k = true ∧ registeredClauses.contains k = true :=
  ⟨rfl, fun fuel ctx nested aliased stmt st res h k hdef =>
    formatDsl_ok_keys_known ctx stmt fuel nested aliased st res h k hdef⟩

/-- C4, witness: a concrete successful `formatDsl` run discharging the
hypotheses of the universal part. -/
theorem c4_unknown_clause_witness :
    formatDsl bigFuel (createContext {}) false false
      (vobj [("select", varr [vstr "*"])]) (some []) =
      .ok (("SELECT *", []), some []) ∧
    clauseOrder.contains "select" = true ∧
    registeredClauses.contains "select" = true :=
  ⟨rfl,
    c4_unknown_clause_in_statement_raises.2 bigFuel (createContext {}) false
      false (vobj [("select", varr [vstr "*"])]) (some [])
      (("SELECT *", []), some []) rfl "select" rfl⟩

/-- C5, counterexample: the default output quotes every string
identifier, so the claimed unquoted text is not the output. -/
theorem c5_identifiers_are_quoted_counterexample :
    format stmtC5 =
      .ok ("SELECT \"id\", \"name\" FROM \"users\" WHERE \"id\" = $1", [vnum 1]) ∧
    ("SELECT \"id\", \"name\" FROM \"users\" WHERE \"id\" = $1" : String) ≠
      "SELECT id, name FROM users WHERE id = $1" :=
  ⟨rfl, by decide⟩

/-- C5, amended: with default (postgres, numbered) options the concrete
scenario returns exactly
`["SELECT \"id\", \"name\" FROM \"users\" WHERE \"id\" = $1", 1]` — the
claimed text with every identifier double-quoted. -/
theorem c5_concrete_output :
    format stmtC5 =
      .ok ("SELECT \"id\", \"name\" FROM \"users\" WHERE \"id\" = $1", [vnum 1]) :=
  rfl

/-- C6: the WHERE guard raises for the update without a WHERE and accepts
the variant with one, as the claim states; but the guard only checks
truthiness of the `where` value, so `where: []` — an empty WHERE clause
that renders as no WHERE text at all — slips through under strict
checking, producing a full-table UPDATE. -/
theorem c6_where_guard_behaviour :
    format stmtUpdNoWhere { checking := some "strict" } =
      .error "UPDATE without a non-empty WHERE clause is dangerous" ∧
    format stmtUpdWhere { checking := some "strict" } =
      .ok ("UPDATE \"users\" SET \"name\" = $1 WHERE \"id\" = $2",
        [vstr "x", vnum 1]) ∧
    format stmtUpdEmptyWhere { checking := some "strict" } =
      .ok ("UPDATE \"users\" SET \"name\" = $1", [vstr "x"]) :=
  ⟨rfl, rfl, rfl⟩

/-- C7, counterexample: a string failing the identifier pattern does not
make formatting raise — passed as an operand it is rendered as a
parameterized literal value. -/
theorem c7_non_identifier_does_not_raise :
    isIdentStr "foo bar" = false ∧
    format (varr [vstr "=", vstr "x", vstr "foo bar"]) =
      .ok ("\"x\" = $1", [vstr "foo bar"]) :=
  ⟨rfl, rfl⟩

/-- C7, amended: any string failing the identifier pattern is not
classified as an identifier; `formatExpr` falls through to the literal
branch and renders it as a `$1` placeholder carrying the string as the
parameter (under the default numbered mode). -/
theorem c7_non_identifier_renders_as_value :
    ∀ s : String, isIdentStr s = false →
      format (vstr s) {} = .ok ("$1", [vstr s]) := by
  intro s h
  have h1000 : bigFuel = 999 + 1 := rfl
  simp only [format, h1000, isClause, isExprArray, Bool.false_and,
    Bool.and_self, if_false, formatExpr, h, formatLiteral, addNumberedParam,
    createContext]
  rfl

/-- C7, witness: the amended theorem applied at the concrete
non-identifier string `foo bar`. -/
theorem c7_non_identifier_witness :
    isIdentStr "foo bar" = false ∧
    format (vstr "foo bar") {} = .ok ("$1", [vstr "foo bar"]) :=
  ⟨rfl, c7_non_identifier_renders_as_value "foo bar" rfl⟩

/-- C8: `fromSql("SELECT * FROM users WHERE status = 'active'")` yields
`{select:["*"], from:"users", where:["=","status",{$:"active"}]}`, and
the transformer wraps every scalar literal node — integer, string and
boolean — as a `{$: value}` typed value. -/
theorem c8_fromSql_wraps_literals :
    fromSqlOfAst parseActiveUsers =
      vobj [("select", varr [vstr "*"]), ("from", vstr "users"),
        ("where", varr [vstr "=", vstr "status", vobj [("$", vstr "active")]])] ∧
    (∀ n : Int, exprToClause (.intLit n) = vobj [("$", vnum n)]) ∧
    (∀ s : String, exprToClause (.strLit s) = vobj [("$", vstr s)]) ∧
    (∀ b : Bool, exprToClause (.boolLit b) = vobj [("$", vbool b)]) :=
  ⟨rfl, fun _ => rfl, fun _ => rfl, fun _ => rfl⟩

/-- C9, counterexample: the rewrite emits the identifier quoted, so the
output text is `"x" IS NULL`, not the claimed `x IS NULL`. -/
theorem c9_null_rewrite_quotes_identifier :
    format (varr [vstr "=", vstr "x", vnull]) = .ok ("\"x\" IS NULL", []) ∧
    ("\"x\" IS NULL" : String) ≠ "x IS NULL" :=
  ⟨rfl, by decide⟩

/-- C9, amended: with `transformNullEquals` on (the default),
`format(["=","x",null])` produces `"x" IS NULL` (identifier quoted) with
zero parameters; with the option off it produces the literal comparison
`"x" = NULL` instead. -/
theorem c9_null_equality_rewrite :
    format (varr [vstr "=", vstr "x", vnull]) = .ok ("\"x\" IS NULL", []) ∧
    format (varr [vstr "=", vstr "x", vnull]) { transformNullEquals := some false } =
      .ok ("\"x\" = NULL", []) :=
  ⟨rfl, rfl⟩

/-- C10: boolean literals always render inline as the SQL keywords
TRUE/FALSE with an empty parameter list, for every combination of the
`inline` and `numbered` options, both for bare booleans and for booleans
wrapped as `{$: b}`. -/
theorem c10_booleans_always_inline :
    ∀ (inl num : Bool),
      format (varr [vstr "=", vstr "active", vbool true])
          { inline := some inl, numbered := some num } =
        .ok ("\"active\" = TRUE", []) ∧
      format (varr [vstr "=", vstr "active", vobj [("$", vbool true)]])
          { inline := some inl, numbered := some num } =
        .ok ("\"active\" = TRUE", []) ∧
      format (varr [vstr "=", vstr "active", vbool false])
          { inline := some inl, numbered := some num } =
        .ok ("\"active\" = FALSE", []) ∧
      format (varr [vstr "=", vstr "active", vobj [("$", vbool false)]])
          { inline := some inl, numbered := some num } =
        .ok ("\"active\" = FALSE", []) := by
  intro inl num
  cases inl <;> cases num <;> exact ⟨rfl, rfl, rfl, rfl⟩

end HoneyTs
